import Mathlib

/-!
Verification development for the spreadsheet data-transformation pipeline of
the `excel_column_remover` repository (`src/services/dateUtilities.js`,
`src/services/dataProcessing.js`, `src/components/ExcelColumnRemover.js`,
"enhanced" variants).

The JavaScript code is shallowly embedded:
* a cell is a primitive value (string, number, date-like object, or
  null/undefined/missing), modelled by `Cell`; numbers are modelled as
  integers (no floating-point cell value is relevant to the code paths
  embedded here);
* a grid is a list of rows, each row a list of cells (JavaScript `null`
  rows do not occur in grids produced by the XLSX reader and are not
  modelled);
* JavaScript string operations (`trim`, `toLowerCase`, `includes`,
  `replace(/\s+/g,' ')`, `String(n)`) are implemented on character lists;
* the detector's floating-point confidence scores take only the values
  0, 0.24, 0.285, 0.7, 0.8, 0.9, 0.95; they are represented exactly in
  fixed point (scaled by 1000, e.g. 0.95 ↦ 950), and the sampled-content
  ratio comparisons `valid/total > c` are rendered by the equivalent
  cross-multiplied integer comparisons;
* the month-year key string `"YYYY-MM"` is represented by the pair
  (year, month); this is faithful because every key the code builds has a
  zero-padded two-digit month and an unpadded four-digit year, so the
  rendering is injective on the reachable values.
-/

/-! ## JavaScript string primitives on character lists -/

/-- Whitespace characters recognised by JavaScript `trim` / `\s`
(ASCII subset; the inputs relevant here are ASCII). -/
def isWSChar (c : Char) : Bool :=
  c = ' ' || c = '\t' || c = '\n' || c = '\r' || c.toNat = 11 || c.toNat = 12

/-- Characters of `s.trim()`: leading and trailing whitespace removed. -/
def trimChars (cs : List Char) : List Char :=
  ((cs.dropWhile isWSChar).reverse.dropWhile isWSChar).reverse

/-- Characters of `s.toLowerCase()` (ASCII case folding). -/
def lowerChars (cs : List Char) : List Char :=
  cs.map Char.toLower

/-- Helper for `replace(/\s+/g, ' ')`: the flag records whether the previous
character was whitespace (a run already replaced by one space). -/
def collapseWSAux : Bool → List Char → List Char
  | _, [] => []
  | prev, c :: rest =>
    if isWSChar c then
      if prev then collapseWSAux true rest
      else ' ' :: collapseWSAux true rest
    else c :: collapseWSAux false rest

/-- Characters of `s.replace(/\s+/g, ' ')`: every whitespace run becomes a
single space. -/
def collapseWS (cs : List Char) : List Char :=
  collapseWSAux false cs

/-- Does `cs` start with `pat`? -/
def startsWithChars : List Char → List Char → Bool
  | [], _ => true
  | _ :: _, [] => false
  | p :: ps, c :: cs => p = c && startsWithChars ps cs

/-- JavaScript `String.prototype.includes`: contiguous substring test. -/
def containsChars (pat : List Char) : List Char → Bool
  | [] => startsWithChars pat []
  | c :: cs => startsWithChars pat (c :: cs) || containsChars pat cs

/-- JavaScript `String.prototype.endsWith`. -/
def endsWithChars (pat cs : List Char) : Bool :=
  startsWithChars pat.reverse cs.reverse

/-! ## Decimal rendering of numbers (JavaScript `String(n)`) -/

/-- Decimal digit character for a value `0 ≤ d ≤ 9`. -/
def digitChar (d : Nat) : Char :=
  match d with
  | 0 => '0' | 1 => '1' | 2 => '2' | 3 => '3' | 4 => '4'
  | 5 => '5' | 6 => '6' | 7 => '7' | 8 => '8' | _ => '9'

/-- Numeric value of a decimal digit character. -/
def digitVal (c : Char) : Nat := c.toNat - 48

/-- Fuel-driven decimal rendering; the fuel `n + 1` always suffices. -/
def natToCharsAux : Nat → Nat → List Char → List Char
  | 0, _, acc => acc
  | fuel + 1, n, acc =>
    if n < 10 then digitChar n :: acc
    else natToCharsAux fuel (n / 10) (digitChar (n % 10) :: acc)

/-- Characters of the decimal representation of `n`. -/
def natToChars (n : Nat) : List Char :=
  natToCharsAux (n + 1) n []

/-- JavaScript `String(n)` for a natural number. -/
def natToString (n : Nat) : String :=
  String.mk (natToChars n)

/-- JavaScript `String(n)` for an integer. -/
def intToString (n : Int) : String :=
  if n < 0 then String.mk ('-' :: natToChars n.natAbs) else natToString n.toNat

theorem digitChar_isDigit {d : Nat} (h : d < 10) : (digitChar d).isDigit = true := by
  interval_cases d <;> decide

theorem digitChar_val {d : Nat} (h : d < 10) : digitVal (digitChar d) = d := by
  interval_cases d <;> decide

/-- Reading the rendered digits of `n` back with a decimal fold recovers `n`;
moreover the rendered block is nonempty, consists of digits, and is simply
prepended to the accumulator. -/
theorem natToCharsAux_spec :
    ∀ n fuel acc, n < fuel →
      ∃ ds, natToCharsAux fuel n acc = ds ++ acc ∧ ds ≠ [] ∧
        (∀ c ∈ ds, c.isDigit = true) ∧
        ds.foldl (fun v c => v * 10 + digitVal c) 0 = n := by
  intro n
  induction n using Nat.strong_induction_on with
  | _ n ih =>
    intro fuel acc hfuel
    match fuel, hfuel with
    | fuel + 1, hfuel =>
      by_cases h10 : n < 10
      · refine ⟨[digitChar n], ?_, by simp, ?_, ?_⟩
        · simp [natToCharsAux, h10]
        · intro c hc
          simp at hc
          subst hc
          exact digitChar_isDigit h10
        · simp [digitChar_val h10]
      · have hdiv : n / 10 < n := Nat.div_lt_self (by omega) (by omega)
        have hdivfuel : n / 10 < fuel := by omega
        obtain ⟨ds, heq, hne, hdig, hfold⟩ :=
          ih (n / 10) hdiv fuel (digitChar (n % 10) :: acc) hdivfuel
        refine ⟨ds ++ [digitChar (n % 10)], ?_, by simp, ?_, ?_⟩
        · simp [natToCharsAux, h10, heq]
        · intro c hc
          rcases List.mem_append.mp hc with h | h
          · exact hdig c h
          · simp at h
            subst h
            exact digitChar_isDigit (Nat.mod_lt _ (by omega))
        · rw [List.foldl_append, hfold]
          simp [digitChar_val (Nat.mod_lt (x := n) (y := 10) (by omega))]
          omega

theorem natToChars_spec (n : Nat) :
    natToChars n ≠ [] ∧ (∀ c ∈ natToChars n, c.isDigit = true) ∧
      (natToChars n).foldl (fun v c => v * 10 + digitVal c) 0 = n := by
  obtain ⟨ds, heq, hne, hdig, hfold⟩ := natToCharsAux_spec n (n + 1) [] (by omega)
  unfold natToChars
  rw [heq, List.append_nil]
  exact ⟨hne, hdig, hfold⟩

theorem natToChars_injective : Function.Injective natToChars := by
  intro a b h
  have ha := (natToChars_spec a).2.2
  have hb := (natToChars_spec b).2.2
  rw [h] at ha
  omega

theorem natToString_injective : Function.Injective natToString := by
  intro a b h
  exact natToChars_injective (by injection h)

theorem natToChars_no_space (n : Nat) : ' ' ∉ natToChars n := by
  intro hmem
  have := (natToChars_spec n).2.1 ' ' hmem
  simp [Char.isDigit] at this

/-! ## Cells and grids -/

/-- Raw cell value delivered by the spreadsheet reader: string, number
(integer), date-like object (only month and year of a JavaScript `Date`
are ever read), or null/undefined/missing. -/
inductive Cell where
  | str (s : String)
  | num (n : Int)
  | date (year : Int) (month : Nat)
  | empty
deriving DecidableEq, Repr

/-- Grid: list of rows of cells. -/
abbrev Grid := List (List Cell)

/-- JavaScript truth test `!v` for a cell value: null/undefined, the empty
string, and numeric 0 are falsy; every `Date` object is truthy. -/
def cellFalsy : Cell → Bool
  | .empty => true
  | .str s => s = ""
  | .num n => n = 0
  | .date _ _ => false

/-- JavaScript `String(v)` for a cell. A `Date`'s rendering is modelled
opaquely (it is never consulted: the parser handles `Date` objects before
stringifying and a date-valued header does not occur); `String(undefined)`
is likewise never consulted because every call site first excludes falsy
values. -/
def cellToString : Cell → String
  | .str s => s
  | .num n => intToString n
  | .date y m => String.mk ('[' :: 'D' :: 'a' :: 't' :: 'e' :: ' ' :: (intToString y).data ++ '-' :: natToChars m)
  | .empty => ""

/-- JavaScript `row[idx]` for a signed index: out-of-range and negative
indices give `undefined`, modelled by `Cell.empty`. -/
def cellAtI (row : List Cell) (idx : Int) : Cell :=
  if 0 ≤ idx then row.getD idx.toNat Cell.empty else Cell.empty

/-- JavaScript `row[idx]` for a natural index. -/
def cellAtN (row : List Cell) (idx : Nat) : Cell :=
  row.getD idx Cell.empty

/-! ## DateParser (`getMonthAndYearFromDate`, dateUtilities.js lines 8–143) -/

/-- Parse result: month `1..12` (the code's zero-padded string `"01".."12"`)
and year (the code's `"YYYY"` string). -/
structure DateMY where
  month : Nat
  year : Nat
deriving DecidableEq, Repr

/-- Shared validation-and-construction step used verbatim at several return
sites of the source: `if (month >= 1 && month <= 12 && year >= 1900 &&
year <= 2100) return {month, year}`. -/
def validatedMY (m : Nat) (y : Int) : Option DateMY :=
  if 1 ≤ m ∧ m ≤ 12 ∧ 1900 ≤ y ∧ y ≤ 2100 then some ⟨m, y.toNat⟩ else none

/-- Civil date (year, month) of the day `z` days after 1970-01-01
(proleptic Gregorian, Howard Hinnant's `civil_from_days`); models reading
`getFullYear`/`getMonth` of a UTC-midnight `Date` (UTC timezone assumed). -/
def civilFromDays (z0 : Int) : Int × Nat :=
  let z := z0 + 719468
  let era : Int := z.fdiv 146097
  let doe : Nat := (z - era * 146097).toNat
  let yoe : Nat := (doe - doe / 1460 + doe / 36524 - doe / 146096) / 365
  let y : Int := (yoe : Int) + era * 400
  let doy : Nat := doe - (365 * yoe + yoe / 4 - yoe / 100)
  let mp : Nat := (5 * doy + 2) / 153
  let m : Nat := if mp < 10 then mp + 3 else mp - 9
  (if m ≤ 2 then y + 1 else y, m)

/-- Matcher for `(\d{1,2})[\/\-\.]`: one or two digits followed by a
separator; returns the value and the characters after the separator.
Digits and separators are disjoint, so the regex match is deterministic. -/
def numSep : List Char → Option (Nat × List Char)
  | c1 :: c2 :: rest =>
    if c1.isDigit && c2.isDigit then
      match rest with
      | c3 :: rest2 => if c3 = '/' || c3 = '-' || c3 = '.' then
          some (digitVal c1 * 10 + digitVal c2, rest2) else none
      | [] => none
    else if c1.isDigit && (c2 = '/' || c2 = '-' || c2 = '.') then
      some (digitVal c1, rest)
    else none
  | _ => none

/-- Matcher for `(\d{4})`: four consecutive digits (anything may follow,
since the pattern is not end-anchored and the trailing time group is
optional). -/
def fourDigits : List Char → Option Nat
  | c1 :: c2 :: c3 :: c4 :: _ =>
    if c1.isDigit && c2.isDigit && c3.isDigit && c4.isDigit then
      some (((digitVal c1 * 10 + digitVal c2) * 10 + digitVal c3) * 10 + digitVal c4)
    else none
  | _ => none

/-- Match of `^(\d{1,2})[\/\-\.](\d{1,2})[\/\-\.](\d{4})(\s+\d{1,2}:\d{2})?`
against the character list: the two leading numbers and the year. -/
def matchDMY (cs : List Char) : Option (Nat × Nat × Nat) :=
  match numSep cs with
  | none => none
  | some (a, rest) =>
    match numSep rest with
    | none => none
    | some (b, rest2) =>
      match fourDigits rest2 with
      | none => none
      | some y => some (a, b, y)

/-- Match of `^(\d{4})[\/\-\.](\d{1,2})[\/\-\.](\d{1,2})(\s+\d{1,2}:\d{2})?`:
year and month (the day is matched but the source never validates it). -/
def matchISO (cs : List Char) : Option (Nat × Nat) :=
  match cs with
  | c1 :: c2 :: c3 :: c4 :: c5 :: rest =>
    if c1.isDigit && c2.isDigit && c3.isDigit && c4.isDigit &&
        (c5 = '/' || c5 = '-' || c5 = '.') then
      match numSep rest with
      | none => none
      | some (m, rest2) =>
        match rest2 with
        | d1 :: _ => if d1.isDigit then
            some ((((digitVal c1 * 10 + digitVal c2) * 10 + digitVal c3) * 10 + digitVal c4), m)
          else none
        | [] => none
    else none
  | _ => none

/-- Patterns 1/2 of the source: `DD/MM/YYYY` or `MM/DD/YYYY` according to
`assumeFormat`; on a regex match whose month/year fail validation the
source falls through (returns nothing from this pattern). -/
def parseP12 (fmt : String) (cs : List Char) : Option DateMY :=
  if fmt = "DD/MM/YYYY" then
    match matchDMY cs with
    | some (_, m, y) => validatedMY m y
    | none => none
  else if fmt = "MM/DD/YYYY" then
    match matchDMY cs with
    | some (m, _, y) => validatedMY m y
    | none => none
  else none

/-- Pattern 3 of the source: auto-detected `N1/N2/YYYY`; `N1 > 12` forces
day-first, `N2 > 12` forces month-first, otherwise day-first (European
default) with `N1 ≤ 31`. -/
def parseP3 (cs : List Char) : Option DateMY :=
  match matchDMY cs with
  | none => none
  | some (a, b, y) =>
    if 1900 ≤ y ∧ y ≤ 2100 then
      if 12 < a ∧ 1 ≤ b ∧ b ≤ 12 then some ⟨b, y⟩
      else if 12 < b ∧ 1 ≤ a ∧ a ≤ 12 then some ⟨a, y⟩
      else if 1 ≤ a ∧ a ≤ 31 ∧ 1 ≤ b ∧ b ≤ 12 then some ⟨b, y⟩
      else none
    else none

/-- Pattern 4 of the source: ISO `YYYY-MM-DD` prefix with year and month
validated (the day is not validated). -/
def parseP4 (cs : List Char) : Option DateMY :=
  match matchISO cs with
  | none => none
  | some (y, m) =>
    if 1900 ≤ y ∧ y ≤ 2100 ∧ 1 ≤ m ∧ m ≤ 12 then some ⟨m, y⟩ else none

/-- Days in a month of the proleptic Gregorian calendar. -/
def daysInMonth (y : Nat) (m : Nat) : Nat :=
  if m = 2 then (if y % 4 = 0 ∧ (y % 100 ≠ 0 ∨ y % 400 = 0) then 29 else 28)
  else if m = 4 ∨ m = 6 ∨ m = 9 ∨ m = 11 then 30 else 31

/-- Exactly `k` decimal digits, returning their value and the remainder. -/
def exactDigits : Nat → List Char → Option (Nat × List Char)
  | 0, cs => some (0, cs)
  | k + 1, c :: cs =>
    if c.isDigit then
      (exactDigits k cs).map (fun p => (digitVal c * 10 ^ k + p.1, p.2))
    else none
  | _ + 1, [] => none

/-- Range validation of an ECMAScript date-only form: the parsed fields
must be in bounds (a standards-conforming `Date.parse` yields `NaN`
otherwise), and the source then accepts the result only for
`1900 < getFullYear() < 2100`. -/
def parseP5check (y m d : Nat) : Option DateMY :=
  if 1 ≤ m ∧ m ≤ 12 ∧ 1 ≤ d ∧ d ≤ daysInMonth y m ∧ 1900 < y ∧ y < 2100 then
    some ⟨m, y⟩
  else none

/-- Model of the ECMAScript `Date` constructor string fallback (pattern 5 of
the source), restricted to the standardised date-only forms `YYYY`,
`YYYY-MM`, `YYYY-MM-DD` evaluated at UTC; every other string is modelled as
unparseable. The `cleanStr` of the source (whitespace runs collapsed, then
trimmed) is applied first. -/
def parseP5 (cs0 : List Char) : Option DateMY :=
  match exactDigits 4 (trimChars (collapseWS cs0)) with
  | none => none
  | some (y, rest) =>
    match rest with
    | [] => if 1900 < y ∧ y < 2100 then some ⟨1, y⟩ else none
    | c :: rest2 =>
      if c = '-' then
        match exactDigits 2 rest2 with
        | none => none
        | some (m, rest3) =>
          match rest3 with
          | [] => parseP5check y m 1
          | c2 :: rest4 =>
            if c2 = '-' then
              match exactDigits 2 rest4 with
              | none => none
              | some (d, rest5) =>
                match rest5 with
                | [] => parseP5check y m d
                | _ :: _ => none
            else none
      else none

/-- String-parsing pipeline of the source (patterns 1–5 in order, first
success wins). -/
def parseDateString (fmt : String) (cs : List Char) : Option DateMY :=
  match parseP12 fmt cs with
  | some r => some r
  | none =>
    match parseP3 cs with
    | some r => some r
    | none =>
      match parseP4 cs with
      | some r => some r
      | none => parseP5 cs

/-- `getMonthAndYearFromDate(dateValue, assumeFormat)` (dateUtilities.js
lines 8–143): falsy values are rejected; `Date` objects are read directly
(no fall-through on invalid range); numbers strictly between 25000 and
50000 are converted as Excel serials via the epoch 1899-12-30 (day
−25569 of the Unix epoch), falling through to string parsing if the
converted date fails the range check; everything else is stringified,
trimmed and sent to the string patterns. -/
def getMonthAndYearFromDate (c : Cell) (fmt : String := "DD/MM/YYYY") : Option DateMY :=
  if cellFalsy c then none
  else
    match c with
    | .date y m => validatedMY m y
    | .num n =>
      if 25000 < n ∧ n < 50000 then
        match validatedMY (civilFromDays (n - 25569)).2 (civilFromDays (n - 25569)).1 with
        | some r => some r
        | none => parseDateString fmt (trimChars (cellToString (Cell.num n)).data)
      else parseDateString fmt (trimChars (cellToString (Cell.num n)).data)
    | _ => parseDateString fmt (trimChars (cellToString c).data)

/-- `getMonthFromDate` (legacy wrapper, lines 150–153): the month component
only. -/
def getMonthFromDate (c : Cell) (fmt : String := "DD/MM/YYYY") : Option Nat :=
  (getMonthAndYearFromDate c fmt).map (fun r => r.month)

/-! ## Stable sorting (JavaScript `Array.prototype.sort`) -/

/-- Insert `x` before the first element it must strictly precede; later
equal elements stay behind earlier ones, which matches the stability of
`Array.prototype.sort`. -/
def insertSortedBy {α : Type} (before : α → α → Bool) (x : α) : List α → List α
  | [] => [x]
  | y :: ys => if before x y then x :: y :: ys else y :: insertSortedBy before x ys

/-- Stable sort by the strict precedence predicate `before`. -/
def insertionSortBy {α : Type} (before : α → α → Bool) (l : List α) : List α :=
  l.foldl (fun acc x => insertSortedBy before x acc) []

theorem mem_insertSortedBy {α : Type} (before : α → α → Bool) (x a : α) :
    ∀ l, a ∈ insertSortedBy before x l ↔ a = x ∨ a ∈ l := by
  intro l
  induction l with
  | nil => simp [insertSortedBy]
  | cons y ys ih =>
    by_cases h : before x y = true
    · simp only [insertSortedBy, h, if_true, List.mem_cons]
    · simp only [insertSortedBy, h, if_false, Bool.false_eq_true, List.mem_cons, ih]
      tauto

theorem mem_insertionSortBy {α : Type} (before : α → α → Bool) (l : List α) (a : α) :
    a ∈ insertionSortBy before l ↔ a ∈ l := by
  have key : ∀ (l acc : List α),
      a ∈ l.foldl (fun acc x => insertSortedBy before x acc) acc ↔ a ∈ acc ∨ a ∈ l := by
    intro l
    induction l with
    | nil => simp
    | cons x xs ih =>
      intro acc
      rw [List.foldl_cons, ih, mem_insertSortedBy]
      simp
      tauto
  rw [insertionSortBy, key]
  simp

/-! ## DateColumnDetector (`findAllDateColumns`, dateUtilities.js lines 161–314) -/

/-- STRICT date keywords of the source. -/
def strictDateKeywords : List String :=
  ["date", "dates", "submission", "created", "time", "timestamp"]

/-- Multi-word date patterns of the source (highest confidence). -/
def multiWordPatterns : List String :=
  ["service date", "submission date", "created date", "visit date",
   "appointment date", "due date", "expiry date", "start date", "end date",
   "birth date", "date of birth", "modified date", "updated date", "remittance date"]

/-- Keywords that exclude a column from date detection. -/
def excludedKeywords : List String :=
  ["qty", "quantity", "amount", "amt", "code", "id", "number", "no",
   "name", "description", "type", "status", "category", "class",
   "rate", "price", "cost", "fee", "total", "sum", "count"]

/-- Does the lowercased, trimmed header contain an excluded keyword? -/
def excludedContains (headerStr : List Char) : Bool :=
  excludedKeywords.any (fun kw => containsChars kw.data headerStr)

/-- Strategy 1: first multi-word pattern contained in the
whitespace-collapsed header. -/
def multiWordMatchOf (headerStr : List Char) : Option String :=
  multiWordPatterns.find? (fun pat => containsChars (lowerChars pat.data) (collapseWS headerStr))

/-- Strategy 2: first strict keyword match; `date` must be the whole header
or a suffix, other keywords may appear anywhere. -/
def keywordMatchOf (headerStr : List Char) : Option String :=
  strictDateKeywords.find? (fun kw =>
    if kw = "date" then
      decide (headerStr = "date".data) || endsWithChars " date".data headerStr ||
        endsWithChars "date".data headerStr
    else containsChars kw.data headerStr)

/-- Is a sampled cell counted (`!== null && !== undefined && !== ''`)?
Note numeric 0 is counted here, unlike the falsy test. -/
def cellPresent : Cell → Bool
  | .empty => false
  | .str s => !(s = "")
  | _ => true

/-- Sampled-content statistics of column `i`: (totalValues, validDates). -/
def columnSampleCounts (sampleRows : List (List Cell)) (i : Nat) : Nat × Nat :=
  sampleRows.foldl
    (fun p row =>
      let c := cellAtN row i
      if cellPresent c then
        (p.1 + 1, p.2 + (if (getMonthFromDate c).isSome then 1 else 0))
      else p)
    (0, 0)

/-- Candidate date column, as pushed by the source. Confidence is in
exact fixed point ×1000 (the float values 0.95/0.9/0.8/0.7/0.285/0.24
become 950/900/800/700/285/240; every arithmetic step of the source is
exact at these values). -/
structure DateColumnCandidate where
  index : Nat
  header : Cell
  confidence : Nat
  matchType : String
  displayName : Cell
deriving DecidableEq, Repr

/-- The source's `headerStr`: `header.toString().toLowerCase().trim()`. -/
def headerStrOf (header : Cell) : List Char :=
  trimChars (lowerChars (cellToString header).data)

/-- Strategies 1–2 of the source: confidence and match type from the header
keywords alone (0.95 for a multi-word pattern, 0.8 for a strict keyword,
otherwise 0). -/
def baseScoreOf (headerStr : List Char) : Nat × String :=
  match multiWordMatchOf headerStr with
  | some pat => (950, "Multi-word pattern: \"" ++ pat ++ "\"")
  | none =>
    match keywordMatchOf headerStr with
    | some kw => (800, "Keyword: \"" ++ kw ++ "\"")
    | none => (0, "")

/-- Strategies 3–4 of the source: blend the keyword confidence with the
sampled-content statistics. The ratio comparisons `valid/total > c` are
written cross-multiplied (`10*valid > 8*total` for `> 0.8`, and so on). -/
def scoredOf (sampleRows : List (List Cell)) (i : Nat) (base : Nat × String) : Nat × String :=
  if 0 < base.1 ∧ sampleRows ≠ [] then
    let tv := columnSampleCounts sampleRows i
    if 0 < tv.1 then
      let frac := " (" ++ natToString tv.2 ++ "/" ++ natToString tv.1 ++ ")"
      if 8 * tv.1 < 10 * tv.2 then
        (max base.1 900, base.2 ++ " + High data confidence" ++ frac)
      else if 5 * tv.1 < 10 * tv.2 then
        (max base.1 (base.1 * 9 / 10), base.2 ++ " + Moderate data confidence" ++ frac)
      else if 10 * tv.2 < 3 * tv.1 then
        (base.1 * 3 / 10, base.2 ++ " - Poor data match" ++ frac)
      else base
    else base
  else if base.1 = 0 ∧ sampleRows ≠ [] then
    let tv := columnSampleCounts sampleRows i
    if 0 < tv.1 ∧ 9 * tv.1 < 10 * tv.2 then
      (700, "Pure data analysis: " ++ natToString tv.2 ++ "/" ++ natToString tv.1 ++
        " valid dates")
    else base
  else base

/-- Body of the per-column loop of `findAllDateColumns`: returns the
candidate pushed for column `i`, if any (`confidence > 0.7` and not
excluded). -/
def resolveDateColumn (sampleRows : List (List Cell)) (i : Nat) (header : Cell) :
    Option DateColumnCandidate :=
  if cellFalsy header then none
  else if excludedContains (headerStrOf header) then none
  else
    if 700 < (scoredOf sampleRows i (baseScoreOf (headerStrOf header))).1 then
      some ⟨i, header, (scoredOf sampleRows i (baseScoreOf (headerStrOf header))).1,
        (scoredOf sampleRows i (baseScoreOf (headerStrOf header))).2, header⟩
    else none

/-- `findAllDateColumns(headerRow, sampleRows)`: per-column candidates,
sorted by confidence descending (stable). -/
def findAllDateColumns (headerRow : List Cell) (sampleRows : List (List Cell)) :
    List DateColumnCandidate :=
  if headerRow = [] then []
  else
    insertionSortBy (fun a b => b.confidence < a.confidence)
      ((List.range headerRow.length).filterMap
        (fun i => resolveDateColumn sampleRows i (cellAtN headerRow i)))

/-- `findDateColumn` (legacy wrapper, lines 322–325): best candidate's
index, `-1` if none. -/
def findDateColumn (headerRow : List Cell) (sampleRows : List (List Cell)) : Int :=
  match findAllDateColumns headerRow sampleRows with
  | c :: _ => (c.index : Int)
  | [] => -1

/-! ## MonthAggregator (`countEntriesByMonthWithColumn`, lines 333–435) -/

/-- Fixed month-name table of the source. -/
def monthName : Nat → String
  | 1 => "January" | 2 => "February" | 3 => "March" | 4 => "April"
  | 5 => "May" | 6 => "June" | 7 => "July" | 8 => "August"
  | 9 => "September" | 10 => "October" | 11 => "November" | 12 => "December"
  | _ => ""

/-- Month-count record as produced by the source: `month` is the display
name `"MonthName YYYY"`, `code`/`yearCode` the month and year, and
`monthYearKey` the `"YYYY-MM"` key (represented by the pair). -/
structure MonthCount where
  month : String
  code : Nat
  yearCode : Nat
  monthYearKey : Nat × Nat
  count : Nat
deriving DecidableEq, Repr

/-- `monthYearCounts.set(key, (get(key) || 0) + 1)` on an insertion-ordered
association list — the iteration order of a JavaScript `Map`. -/
def bumpKey (k : Nat × Nat) : List ((Nat × Nat) × Nat) → List ((Nat × Nat) × Nat)
  | [] => [(k, 1)]
  | (k', c) :: rest => if k' = k then (k', c + 1) :: rest else (k', c) :: bumpKey k rest

/-- Month-year key of the date cell of `row` at column `idx`, if parseable. -/
def rowKeyI (idx : Int) (row : List Cell) : Option (Nat × Nat) :=
  (getMonthAndYearFromDate (cellAtI row idx)).map (fun r => (r.year, r.month))

/-- Counting fold over the data rows (the source splits the loop at row 21
purely for debug logging; the counting effect is identical). -/
def monthYearCounts (idx : Int) (rows : List (List Cell)) : List ((Nat × Nat) × Nat) :=
  rows.foldl
    (fun acc row =>
      match rowKeyI idx row with
      | some k => bumpKey k acc
      | none => acc)
    []

/-- Result record for one key, as built in the `.map` of the source. -/
def mkMonthCount (e : (Nat × Nat) × Nat) : MonthCount :=
  { month := monthName e.1.2 ++ " " ++ natToString e.1.1
    code := e.1.2
    yearCode := e.1.1
    monthYearKey := e.1
    count := e.2 }

/-- Sort comparator of the source: ascending year, then month. -/
def monthCountBefore (a b : MonthCount) : Bool :=
  decide (a.yearCode < b.yearCode ∨ (a.yearCode = b.yearCode ∧ a.code < b.code))

/-- `countEntriesByMonthWithColumn(jsonData, dateColumnIndex)`. -/
def countEntriesByMonthWithColumn (jsonData : Grid) (idx : Int) : Option (List MonthCount) :=
  if jsonData.length < 2 ∨ idx = -1 then none
  else
    let results :=
      insertionSortBy monthCountBefore ((monthYearCounts idx (jsonData.drop 1)).map mkMonthCount)
    if results = [] then none else some results

/-! ## RowFilter (`filterRowsByMonths`, lines 470–563) -/

/-- Resolution of excluded display names to keys: `selectedMonths.map(d =>
monthCounts.find(m => m.month === d)?.monthYearKey).filter(≠ null)`. -/
def monthKeysToRemove (selectedMonths : List String) (monthCounts : List MonthCount) :
    List (Nat × Nat) :=
  selectedMonths.filterMap
    (fun d => (monthCounts.find? (fun m => decide (m.month = d))).map (fun m => m.monthYearKey))

/-- Blank test of the filter: `(dateValue ? String(dateValue).trim() : '')
=== ''`. A nonzero number or a `Date` never stringifies to whitespace. -/
def isBlankDateCell : Cell → Bool
  | .empty => true
  | .str s => decide (trimChars s.data = [])
  | .num n => decide (n = 0)
  | .date _ _ => false

/-- Keep test of the filter loop: a row is kept unless its date cell is
blank, unparseable, or falls in an excluded month-year. -/
def rowKept (idx : Int) (keys : List (Nat × Nat)) (row : List Cell) : Bool :=
  let dv := cellAtI row idx
  if isBlankDateCell dv then false
  else
    match getMonthAndYearFromDate dv with
    | none => false
    | some r => !(decide ((r.year, r.month) ∈ keys))

/-- `filterRowsByMonths(adjustedJsonData, selectedMonths, monthCounts,
dateColumnIndex)`. -/
def filterRowsByMonths (adjustedJsonData : Grid) (selectedMonths : List String)
    (monthCounts : List MonthCount) (idx : Int) : Grid :=
  match adjustedJsonData with
  | [] => []
  | header :: rows =>
    if selectedMonths = [] ∨ idx = -1 then header :: rows
    else header :: rows.filter (rowKept idx (monthKeysToRemove selectedMonths monthCounts))

/-! ## ColumnEditor and PipelineOrchestrator (dataProcessing.js) -/

/-- `addNewColumns(processedData, newHeaders)` (lines 37–54): append the new
names to the header row and one empty-string cell per new column to every
data row. -/
def addNewColumns (processedData : Grid) (newHeaders : List Cell) : Grid :=
  match processedData with
  | [] => []
  | headerRow :: rows =>
    (headerRow ++ newHeaders) ::
      rows.map (fun row => row ++ List.replicate newHeaders.length (Cell.str ""))

/-- `reorderColumns(data, columnOrder)` (lines 62–76): each row is rebuilt
by visiting the order; out-of-bounds indices yield an empty-string cell. -/
def reorderColumns (data : Grid) (columnOrder : List Nat) : Grid :=
  if data = [] ∨ columnOrder = [] then data
  else data.map (fun row => columnOrder.map (fun i => row.getD i (Cell.str "")))

/-- `row.filter((_, index) => !headerIndicesToRemove.includes(index))`,
tracking the position `i` of the current cell. -/
def dropIdxFilter (banned : List Nat) : Nat → List Cell → List Cell
  | _, [] => []
  | i, c :: rest =>
    if i ∈ banned then dropIdxFilter banned (i + 1) rest
    else c :: dropIdxFilter banned (i + 1) rest

/-- Column-removal step of `processExcelData` (STEP 4, lines 224–247):
resolve each selected name against the current header row, drop the
matched indices from every row. -/
def removeColumns (data : Grid) (selectedHeaders : List Cell) : Grid :=
  data.map (fun row =>
    dropIdxFilter
      (selectedHeaders.filterMap (fun h => (data.getD 0 []).findIdx? (fun x => decide (x = h))))
      0 row)

/-- `processExcelData` (lines 128–253): filter rows by month, add new
columns, re-resolve the column order by header name against the
post-addition header row, reorder, and remove selected columns last. The
JavaScript truthiness guard on `addedColumns` is always satisfied (an
array, even empty, is truthy), so only `columnOrder` and `originalHeaders`
are optional here. -/
def processExcelData (jsonData : Grid) (headerRowIndex : Nat) (selectedHeaders : List Cell)
    (selectedMonths : List String) (monthCounts : List MonthCount)
    (selectedDateColumnIndex : Int) (newHeaders : Option (List Cell) := none)
    (columnOrder : Option (List Nat) := none) (originalHeaders : Option (List Cell) := none)
    (addedColumns : List Cell := []) : Grid :=
  let columnsToAdd := newHeaders.getD []
  let headerRow := jsonData.getD headerRowIndex []
  let adjustedJsonData := headerRow :: jsonData.drop (headerRowIndex + 1)
  let filteredData :=
    if selectedMonths ≠ [] ∧ selectedDateColumnIndex ≠ -1 then
      filterRowsByMonths adjustedJsonData selectedMonths monthCounts selectedDateColumnIndex
    else adjustedJsonData
  let dataWithNewColumns := addNewColumns filteredData columnsToAdd
  let reorderedData :=
    match columnOrder, originalHeaders with
    | some co, some oh =>
      if co ≠ [] then
        let allCombinedHeaders := oh ++ addedColumns
        let headersAfterAddition := headerRow ++ columnsToAdd
        let finalColumnOrder := co.filterMap (fun ci =>
          match allCombinedHeaders.get? ci with
          | none => none
          | some nm => headersAfterAddition.findIdx? (fun h => decide (h = nm)))
        if finalColumnOrder ≠ [] then reorderColumns dataWithNewColumns finalColumnOrder
        else dataWithNewColumns
      else dataWithNewColumns
    | _, _ => dataWithNewColumns
  if selectedHeaders ≠ [] then removeColumns reorderedData selectedHeaders else reorderedData

/-! ## MonthSplitter (`separateDataByMonths`, ExcelColumnRemover.js lines 27–147) -/

/-- Per-month bucket of the splitter: display name, month/year codes, the
`"YYYY-MM"` key (as a pair), and the bucketed rows. -/
structure MonthGroup where
  name : String
  code : Nat
  year : Nat
  monthYearKey : Nat × Nat
  rows : List (List Cell)
deriving DecidableEq, Repr

/-- Result of a successful separation. -/
structure SeparatedData where
  headerRow : List Cell
  monthsWithData : List MonthGroup
  totalRows : Nat
  assignedRows : Nat
  invalidDateRows : Nat
deriving DecidableEq, Repr

/-- `monthYearData.set`/`get(...).rows.push(row)` on the insertion-ordered
group list: create the group on first sight of its key, then append. -/
def addRowToGroups (y m : Nat) (row : List Cell) : List MonthGroup → List MonthGroup
  | [] => [⟨monthName m ++ " " ++ natToString y, m, y, (y, m), [row]⟩]
  | g :: gs =>
    if g.monthYearKey = (y, m) then { g with rows := g.rows ++ [row] } :: gs
    else g :: addRowToGroups y m row gs

/-- Row loop of the splitter: groups plus the `assignedRows` and
`invalidDateRows` counters. -/
def separateScan (pIdx : Nat) (rows : List (List Cell)) : List MonthGroup × Nat × Nat :=
  rows.foldl
    (fun st row =>
      match getMonthAndYearFromDate (cellAtN row pIdx) with
      | some r => (addRowToGroups r.year r.month row st.1, st.2.1 + 1, st.2.2)
      | none => (st.1, st.2.1, st.2.2 + 1))
    ([], 0, 0)

/-- Sort comparator of the splitter: ascending year, then month. -/
def monthGroupBefore (a b : MonthGroup) : Bool :=
  decide (a.year < b.year ∨ (a.year = b.year ∧ a.code < b.code))

/-- `separateDataByMonths(...)`: `null` (here `none`) when the data is too
small, no date column is selected, the selected date column's header is
among the headers selected for removal, the processed data is too small,
or the date column cannot be re-found in the processed header row. -/
def separateDataByMonths (jsonData : Grid) (selectedDateColumnIndex : Int)
    (headerRowIndex : Nat) (selectedHeaders : List Cell) (selectedMonths : List String)
    (monthCounts : List MonthCount) (allNewColumns : Option (List Cell))
    (columnOrder : Option (List Nat)) (headers : Option (List Cell))
    (addedCustomColumns : List Cell) : Option SeparatedData :=
  if jsonData.length < 2 ∨ selectedDateColumnIndex = -1 then none
  else
    let originalDateHeader := cellAtI (jsonData.getD headerRowIndex []) selectedDateColumnIndex
    if originalDateHeader ∈ selectedHeaders then none
    else
      let processedData := processExcelData jsonData headerRowIndex selectedHeaders
        selectedMonths monthCounts selectedDateColumnIndex allNewColumns columnOrder
        headers addedCustomColumns
      if processedData.length < 2 then none
      else
        match (processedData.getD 0 []).findIdx? (fun h => decide (h = originalDateHeader)) with
        | none => none
        | some pIdx =>
          let scan := separateScan pIdx (processedData.drop 1)
          some ⟨processedData.getD 0 [],
            insertionSortBy monthGroupBefore (scan.1.filter (fun g => 0 < g.rows.length)),
            (processedData.drop 1).length, scan.2.1, scan.2.2⟩


/-! ## Parser range invariant: every parse result has month 1..12 and
year 1900..2100 -/

theorem validatedMY_range {m : Nat} {y : Int} {r : DateMY}
    (h : validatedMY m y = some r) :
    1 ≤ r.month ∧ r.month ≤ 12 ∧ 1900 ≤ r.year ∧ r.year ≤ 2100 := by
  unfold validatedMY at h
  split at h
  · rename_i hc
    cases h
    show 1 ≤ m ∧ m ≤ 12 ∧ 1900 ≤ y.toNat ∧ y.toNat ≤ 2100
    omega
  · cases h

theorem parseP12_range {fmt : String} {cs : List Char} {r : DateMY}
    (h : parseP12 fmt cs = some r) :
    1 ≤ r.month ∧ r.month ≤ 12 ∧ 1900 ≤ r.year ∧ r.year ≤ 2100 := by
  unfold parseP12 at h
  split at h
  · split at h
    · exact validatedMY_range h
    · cases h
  · split at h
    · split at h
      · exact validatedMY_range h
      · cases h
    · cases h

theorem parseP3_range {cs : List Char} {r : DateMY} (h : parseP3 cs = some r) :
    1 ≤ r.month ∧ r.month ≤ 12 ∧ 1900 ≤ r.year ∧ r.year ≤ 2100 := by
  unfold parseP3 at h
  split at h
  · cases h
  · rename_i a b y heq
    split at h
    · rename_i hy
      split at h
      · rename_i hc
        cases h
        show 1 ≤ b ∧ b ≤ 12 ∧ 1900 ≤ y ∧ y ≤ 2100
        omega
      · split at h
        · rename_i hc
          cases h
          show 1 ≤ a ∧ a ≤ 12 ∧ 1900 ≤ y ∧ y ≤ 2100
          omega
        · split at h
          · rename_i hc
            cases h
            show 1 ≤ b ∧ b ≤ 12 ∧ 1900 ≤ y ∧ y ≤ 2100
            omega
          · cases h
    · cases h

theorem parseP4_range {cs : List Char} {r : DateMY} (h : parseP4 cs = some r) :
    1 ≤ r.month ∧ r.month ≤ 12 ∧ 1900 ≤ r.year ∧ r.year ≤ 2100 := by
  unfold parseP4 at h
  split at h
  · cases h
  · rename_i y m heq
    split at h
    · rename_i hc
      cases h
      show 1 ≤ m ∧ m ≤ 12 ∧ 1900 ≤ y ∧ y ≤ 2100
      omega
    · cases h

theorem parseP5check_range {y m d : Nat} {r : DateMY} (h : parseP5check y m d = some r) :
    1 ≤ r.month ∧ r.month ≤ 12 ∧ 1900 ≤ r.year ∧ r.year ≤ 2100 := by
  unfold parseP5check at h
  split at h
  · rename_i hc
    cases h
    show 1 ≤ m ∧ m ≤ 12 ∧ 1900 ≤ y ∧ y ≤ 2100
    omega
  · cases h

theorem parseP5_range {cs : List Char} {r : DateMY} (h : parseP5 cs = some r) :
    1 ≤ r.month ∧ r.month ≤ 12 ∧ 1900 ≤ r.year ∧ r.year ≤ 2100 := by
  unfold parseP5 at h
  split at h
  · cases h
  · rename_i y rest heq
    split at h
    · split at h
      · rename_i hy
        cases h
        show 1 ≤ 1 ∧ 1 ≤ 12 ∧ 1900 ≤ y ∧ y ≤ 2100
        omega
      · cases h
    · rename_i c rest2
      split at h
      · split at h
        · cases h
        · rename_i m rest3 heq2
          split at h
          · exact parseP5check_range h
          · rename_i c2 rest4
            split at h
            · split at h
              · cases h
              · rename_i d rest5 heq3
                split at h
                · exact parseP5check_range h
                · cases h
            · cases h
      · cases h

theorem parseDateString_range {fmt : String} {cs : List Char} {r : DateMY}
    (h : parseDateString fmt cs = some r) :
    1 ≤ r.month ∧ r.month ≤ 12 ∧ 1900 ≤ r.year ∧ r.year ≤ 2100 := by
  unfold parseDateString at h
  split at h
  · rename_i v h1
    cases h
    exact parseP12_range h1
  · split at h
    · rename_i v h2
      cases h
      exact parseP3_range h2
    · split at h
      · rename_i v h3
        cases h
        exact parseP4_range h3
      · exact parseP5_range h

theorem getMonthAndYearFromDate_range {c : Cell} {fmt : String} {r : DateMY}
    (h : getMonthAndYearFromDate c fmt = some r) :
    1 ≤ r.month ∧ r.month ≤ 12 ∧ 1900 ≤ r.year ∧ r.year ≤ 2100 := by
  unfold getMonthAndYearFromDate at h
  split at h
  · cases h
  · split at h
    · exact validatedMY_range h
    · rename_i n
      split at h
      · split at h
        · rename_i v hv
          cases h
          exact validatedMY_range hv
        · exact parseDateString_range h
      · exact parseDateString_range h
    · exact parseDateString_range h

/-! ## Injectivity of the display name `"MonthName YYYY"` -/

theorem monthName_no_space {m : Nat} (h1 : 1 ≤ m) (h2 : m ≤ 12) :
    ' ' ∉ (monthName m).data := by
  interval_cases m <;> decide

theorem monthName_data_inj {m1 m2 : Nat} (h11 : 1 ≤ m1) (h12 : m1 ≤ 12)
    (h21 : 1 ≤ m2) (h22 : m2 ≤ 12)
    (h : (monthName m1).data = (monthName m2).data) : m1 = m2 := by
  interval_cases m1 <;> interval_cases m2 <;> first | rfl | (exfalso; revert h; decide)

/-- Lists that agree around a unique space split uniquely. -/
theorem append_space_inj :
    ∀ (a1 a2 b1 b2 : List Char), ' ' ∉ a1 → ' ' ∉ a2 →
      a1 ++ ' ' :: b1 = a2 ++ ' ' :: b2 → a1 = a2 ∧ b1 = b2 := by
  intro a1
  induction a1 with
  | nil =>
    intro a2 b1 b2 _ ha2 h
    cases a2 with
    | nil => simpa using h
    | cons c cs =>
      simp at h
      exact absurd (h.1 ▸ List.mem_cons_self c cs) ha2
  | cons c cs ih =>
    intro a2 b1 b2 ha1 ha2 h
    cases a2 with
    | nil =>
      simp at h
      exact absurd (h.1 ▸ List.mem_cons_self c cs) ha1
    | cons d ds =>
      simp at h
      obtain ⟨rfl, h2⟩ := h
      have := ih ds b1 b2 (fun hx => ha1 (List.mem_cons_of_mem _ hx))
        (fun hx => ha2 (List.mem_cons_of_mem _ hx)) h2
      exact ⟨by rw [this.1], this.2⟩

/-- The display name `monthName m ++ " " ++ natToString y` determines the
month and the year (months in range 1..12). -/
theorem displayName_inj {m1 y1 m2 y2 : Nat}
    (h11 : 1 ≤ m1) (h12 : m1 ≤ 12) (h21 : 1 ≤ m2) (h22 : m2 ≤ 12)
    (h : monthName m1 ++ " " ++ natToString y1 = monthName m2 ++ " " ++ natToString y2) :
    m1 = m2 ∧ y1 = y2 := by
  have hd : (monthName m1).data ++ ' ' :: natToChars y1
      = (monthName m2).data ++ ' ' :: natToChars y2 := by
    have := congrArg String.data h
    simpa [String.data_append, natToString] using this
  obtain ⟨hm, hy⟩ := append_space_inj _ _ _ _ (monthName_no_space h11 h12)
    (monthName_no_space h21 h22) hd
  exact ⟨monthName_data_inj h11 h12 h21 h22 hm, natToChars_injective hy⟩

/-! ## Blank cells are unparseable; the filter keep-test -/


/-! ## Blank cells are unparseable; the filter keep-test -/

theorem parseP12_nil (fmt : String) : parseP12 fmt [] = none := by
  simp [parseP12, matchDMY, numSep]

theorem parseP3_nil : parseP3 [] = none := by
  simp [parseP3, matchDMY, numSep]

theorem parseP4_nil : parseP4 [] = none := by
  simp [parseP4, matchISO]

theorem parseP5_nil : parseP5 [] = none := by
  simp [parseP5, exactDigits, trimChars, collapseWS, collapseWSAux]

theorem parseDateString_nil (fmt : String) : parseDateString fmt [] = none := by
  simp [parseDateString, parseP12_nil, parseP3_nil, parseP4_nil, parseP5_nil]

theorem isBlank_parse_none {c : Cell} (h : isBlankDateCell c = true) (fmt : String) :
    getMonthAndYearFromDate c fmt = none := by
  cases c with
  | empty => rfl
  | num n =>
    have hn : n = 0 := by simpa [isBlankDateCell] using h
    subst hn
    rfl
  | date y m => simp [isBlankDateCell] at h
  | str s =>
    have hs : trimChars s.data = [] := by simpa [isBlankDateCell] using h
    unfold getMonthAndYearFromDate
    split
    · rfl
    · simpa [cellToString, hs] using parseDateString_nil fmt

theorem rowKept_iff {idx : Int} {keys : List (Nat × Nat)} {row : List Cell} :
    rowKept idx keys row = true ↔
      ∃ k, rowKeyI idx row = some k ∧ k ∉ keys := by
  unfold rowKept rowKeyI
  by_cases hb : isBlankDateCell (cellAtI row idx) = true
  · simp [hb, isBlank_parse_none hb]
  · simp only [Bool.not_eq_true] at hb
    simp only [hb, Bool.false_eq_true, if_false]
    cases hp : getMonthAndYearFromDate (cellAtI row idx) "DD/MM/YYYY" with
    | none => simp
    | some r => simp

/-- One data row falls in exactly one of the three classes the filter
distinguishes: kept, unparseable (blank included), or excluded key. -/
theorem filter_length_split (idx : Int) (K0 : Nat × Nat) :
    ∀ rows : List (List Cell),
      rows.length = (rows.filter (rowKept idx [K0])).length
        + (rows.filter (fun r => decide (rowKeyI idx r = none))).length
        + (rows.filter (fun r => decide (rowKeyI idx r = some K0))).length := by
  intro rows
  induction rows with
  | nil => simp
  | cons r rs ih =>
    simp only [List.filter_cons]
    by_cases h1 : rowKeyI idx r = some K0
    · have hkept : rowKept idx [K0] r = false := by
        rw [← Bool.not_eq_true, rowKept_iff]
        simp [h1]
      simp [hkept, h1]
      omega
    · by_cases h2 : rowKeyI idx r = none
      · have hkept : rowKept idx [K0] r = false := by
          rw [← Bool.not_eq_true, rowKept_iff]
          simp [h2]
        simp [hkept, h1, h2]
        omega
      · obtain ⟨k, hk⟩ := Option.ne_none_iff_exists.mp h2
        have hkK : k ≠ K0 := by
          intro hEq
          exact h1 (hEq ▸ hk.symm)
        have hkept : rowKept idx [K0] r = true := by
          rw [rowKept_iff]
          exact ⟨k, hk.symm, by simp [hkK]⟩
        simp [hkept, h1, h2]
        omega

/-! ## Counting lemmas for the month aggregator -/

/-- Lookup in the insertion-ordered count list (0 when absent). -/
def assocCount (k : Nat × Nat) : List ((Nat × Nat) × Nat) → Nat
  | [] => 0
  | e :: rest => if e.1 = k then e.2 else assocCount k rest

theorem assocCount_bumpKey (k k' : Nat × Nat) :
    ∀ l, assocCount k (bumpKey k' l) = assocCount k l + (if k' = k then 1 else 0) := by
  intro l
  induction l with
  | nil =>
    simp only [bumpKey, assocCount]
    split <;> simp_all
  | cons e rest ih =>
    obtain ⟨a, c⟩ := e
    simp only [bumpKey]
    by_cases hak : a = k'
    · subst hak
      simp only [if_pos rfl, assocCount]
      by_cases hkk : a = k
      · subst hkk
        simp
      · simp [hkk]
    · rw [if_neg hak]
      simp only [assocCount]
      by_cases hk2 : a = k
      · subst hk2
        have : k' ≠ a := fun hx => hak hx.symm
        simp [this]
      · simp [hk2, ih]

theorem bumpKey_keys_mem {k : Nat × Nat} :
    ∀ l : List ((Nat × Nat) × Nat), k ∈ l.map (fun e => e.1) →
      (bumpKey k l).map (fun e => e.1) = l.map (fun e => e.1) := by
  intro l
  induction l with
  | nil => simp
  | cons e rest ih =>
    obtain ⟨a, c⟩ := e
    intro hmem
    simp only [bumpKey]
    by_cases hak : a = k
    · subst hak
      simp
    · rw [if_neg hak]
      simp only [List.map_cons]
      simp only [List.map_cons] at hmem
      rcases List.mem_cons.mp hmem with h | h
      · exact absurd h.symm hak
      · rw [ih h]

theorem bumpKey_keys_not_mem {k : Nat × Nat} :
    ∀ l : List ((Nat × Nat) × Nat), k ∉ l.map (fun e => e.1) →
      (bumpKey k l).map (fun e => e.1) = l.map (fun e => e.1) ++ [k] := by
  intro l
  induction l with
  | nil => simp [bumpKey]
  | cons e rest ih =>
    obtain ⟨a, c⟩ := e
    intro hmem
    simp only [List.map_cons, List.mem_cons] at hmem
    push_neg at hmem
    simp only [bumpKey]
    rw [if_neg (fun hx => hmem.1 hx.symm)]
    simp only [List.map_cons, List.cons_append, List.cons.injEq, true_and]
    exact ih hmem.2

theorem bumpKey_keys_sub {k : Nat × Nat} (l : List ((Nat × Nat) × Nat)) :
    ∀ k2, k2 ∈ (bumpKey k l).map (fun e => e.1) ↔
      k2 = k ∨ k2 ∈ l.map (fun e => e.1) := by
  intro k2
  by_cases hm : k ∈ l.map (fun e => e.1)
  · rw [bumpKey_keys_mem l hm]
    constructor
    · tauto
    · rintro (rfl | h)
      · exact hm
      · exact h
  · rw [bumpKey_keys_not_mem l hm]
    simp
    tauto

theorem bumpKey_keys_nodup {k : Nat × Nat} {l : List ((Nat × Nat) × Nat)}
    (h : (l.map (fun e => e.1)).Nodup) : ((bumpKey k l).map (fun e => e.1)).Nodup := by
  by_cases hm : k ∈ l.map (fun e => e.1)
  · rw [bumpKey_keys_mem l hm]
    exact h
  · rw [bumpKey_keys_not_mem l hm]
    simp [List.nodup_append, h, hm]

theorem monthYearCounts_keys_nodup (idx : Int) :
    ∀ (rows : List (List Cell)) (acc : List ((Nat × Nat) × Nat)),
      (acc.map (fun e => e.1)).Nodup →
      ((rows.foldl
          (fun acc row =>
            match rowKeyI idx row with
            | some k => bumpKey k acc
            | none => acc)
          acc).map (fun e => e.1)).Nodup := by
  intro rows
  induction rows with
  | nil => intro acc h; simpa using h
  | cons r rs ih =>
    intro acc h
    simp only [List.foldl_cons]
    rcases hk : rowKeyI idx r with _ | k
    · simp only [hk]
      exact ih acc h
    · simp only [hk]
      exact ih _ (bumpKey_keys_nodup h)

theorem monthYearCounts_assoc (idx : Int) (k : Nat × Nat) :
    ∀ (rows : List (List Cell)) (acc : List ((Nat × Nat) × Nat)),
      assocCount k
          (rows.foldl
            (fun acc row =>
              match rowKeyI idx row with
              | some k2 => bumpKey k2 acc
              | none => acc)
            acc)
        = assocCount k acc
          + (rows.filter (fun r => decide (rowKeyI idx r = some k))).length := by
  intro rows
  induction rows with
  | nil => simp
  | cons r rs ih =>
    intro acc
    simp only [List.foldl_cons, List.filter_cons]
    rcases hk : rowKeyI idx r with _ | k2
    · simp only [hk, ih]
      simp
    · simp only [hk, ih, assocCount_bumpKey]
      by_cases hkk : k2 = k
      · subst hkk
        simp
        omega
      · simp [hkk]

theorem monthYearCounts_keys_iff (idx : Int) :
    ∀ (rows : List (List Cell)) (acc : List ((Nat × Nat) × Nat)) (k : Nat × Nat),
      (k ∈ (rows.foldl
          (fun acc row =>
            match rowKeyI idx row with
            | some k2 => bumpKey k2 acc
            | none => acc)
          acc).map (fun e => e.1)) ↔
        k ∈ acc.map (fun e => e.1) ∨ ∃ r ∈ rows, rowKeyI idx r = some k := by
  intro rows
  induction rows with
  | nil => simp
  | cons r rs ih =>
    intro acc k
    simp only [List.foldl_cons]
    rcases hk : rowKeyI idx r with _ | k2
    · simp only [hk, ih]
      simp only [List.mem_cons]
      constructor
      · rintro (h | ⟨r2, hr2, hkey⟩)
        · exact Or.inl h
        · exact Or.inr ⟨r2, Or.inr hr2, hkey⟩
      · rintro (h | ⟨r2, hr2 | hr2, hkey⟩)
        · exact Or.inl h
        · rw [← hr2] at hk
          rw [hk] at hkey
          cases hkey
        · exact Or.inr ⟨r2, hr2, hkey⟩
    · simp only [hk, ih, bumpKey_keys_sub]
      simp only [List.mem_cons]
      constructor
      · rintro ((rfl | h) | ⟨r2, hr2, hkey⟩)
        · exact Or.inr ⟨r, Or.inl rfl, hk⟩
        · exact Or.inl h
        · exact Or.inr ⟨r2, Or.inr hr2, hkey⟩
      · rintro (h | ⟨r2, hr2 | hr2, hkey⟩)
        · exact Or.inl (Or.inr h)
        · rw [← hr2] at hk
          rw [hk] at hkey
          injection hkey with hkey2
          exact Or.inl (Or.inl hkey2.symm)
        · exact Or.inr ⟨r2, hr2, hkey⟩

theorem assocCount_of_mem :
    ∀ (l : List ((Nat × Nat) × Nat)), (l.map (fun e => e.1)).Nodup →
      ∀ e ∈ l, assocCount e.1 l = e.2 := by
  intro l
  induction l with
  | nil => simp
  | cons a rest ih =>
    intro hnd e hmem
    simp only [List.map_cons, List.nodup_cons] at hnd
    rcases List.mem_cons.mp hmem with rfl | h
    · simp [assocCount]
    · have hne : a.1 ≠ e.1 := by
        intro hx
        exact hnd.1 (hx ▸ List.mem_map_of_mem (fun e => e.1) h)
      simp only [assocCount, if_neg hne]
      exact ih hnd.2 e h

/-- Full specification of a successful `countEntriesByMonthWithColumn` run:
each bucket's key, display name and count are faithful to the data rows,
months are in range, and every key occurring in the data owns a bucket. -/
theorem countEntries_spec {grid : Grid} {idx : Int} {buckets : List MonthCount}
    (h : countEntriesByMonthWithColumn grid idx = some buckets) :
    2 ≤ grid.length ∧ idx ≠ -1 ∧
    (∀ b ∈ buckets,
        b.monthYearKey = (b.yearCode, b.code) ∧
        b.month = monthName b.code ++ " " ++ natToString b.yearCode ∧
        b.count = ((grid.drop 1).filter
          (fun r => decide (rowKeyI idx r = some (b.yearCode, b.code)))).length ∧
        1 ≤ b.code ∧ b.code ≤ 12) ∧
    (∀ k, (∃ r ∈ grid.drop 1, rowKeyI idx r = some k) →
        ∃ b ∈ buckets, b.monthYearKey = k) := by
  unfold countEntriesByMonthWithColumn at h
  split at h
  · cases h
  · rename_i hguard
    push_neg at hguard
    dsimp only at h
    split at h
    · cases h
    · rename_i hne
      have hb : buckets = insertionSortBy monthCountBefore
          ((monthYearCounts idx (grid.drop 1)).map mkMonthCount) := by
        injection h with h2
        exact h2.symm
      have hmemiff : ∀ b, b ∈ buckets ↔
          ∃ e ∈ monthYearCounts idx (grid.drop 1), mkMonthCount e = b := by
        intro b
        rw [hb, mem_insertionSortBy, List.mem_map]
      have hnodup : ((monthYearCounts idx (grid.drop 1)).map (fun e => e.1)).Nodup := by
        unfold monthYearCounts
        exact monthYearCounts_keys_nodup idx (grid.drop 1) [] (by simp)
      refine ⟨by omega, hguard.2, ?_, ?_⟩
      · intro b hbmem
        obtain ⟨e, hemem, hbe⟩ := (hmemiff b).mp hbmem
        obtain ⟨⟨y, m⟩, c⟩ := e
        subst hbe
        have hkey : ∃ r ∈ grid.drop 1, rowKeyI idx r = some (y, m) := by
          have : (y, m) ∈ (monthYearCounts idx (grid.drop 1)).map (fun e => e.1) :=
            List.mem_map_of_mem (fun e => e.1) hemem
          have h2 := (monthYearCounts_keys_iff idx (grid.drop 1) [] (y, m)).mp
            (by simpa [monthYearCounts] using this)
          simpa using h2
        have hcount : c = ((grid.drop 1).filter
            (fun r => decide (rowKeyI idx r = some (y, m)))).length := by
          have h1 := assocCount_of_mem _ hnodup _ hemem
          have h2 := monthYearCounts_assoc idx (y, m) (grid.drop 1) []
          simp only [assocCount] at h2
          simp only [monthYearCounts] at h1
          rw [h1] at h2
          simpa using h2
        have hrange : 1 ≤ m ∧ m ≤ 12 := by
          obtain ⟨r, _, hr⟩ := hkey
          unfold rowKeyI at hr
          cases hp : getMonthAndYearFromDate (cellAtI r idx) "DD/MM/YYYY" with
          | none => rw [hp] at hr; cases hr
          | some d =>
            rw [hp] at hr
            have hd := getMonthAndYearFromDate_range hp
            have hr2 : (d.year, d.month) = (y, m) := by
              simpa using hr
            have : d.month = m := congrArg Prod.snd hr2
            omega
        exact ⟨rfl, rfl, hcount, hrange⟩
      · intro k ⟨r, hrmem, hrk⟩
        have : k ∈ (monthYearCounts idx (grid.drop 1)).map (fun e => e.1) := by
          rw [monthYearCounts, monthYearCounts_keys_iff]
          exact Or.inr ⟨r, hrmem, hrk⟩
        obtain ⟨e, hemem, hek⟩ := List.mem_map.mp this
        refine ⟨mkMonthCount e, (hmemiff _).mpr ⟨e, hemem, rfl⟩, ?_⟩
        simpa [mkMonthCount] using hek

/-! ## Resolution of a single excluded display name -/

/-- In the bucket list produced by the aggregator, looking up a bucket's own
display name resolves to exactly that bucket's key (display names are
injective in the key). -/
theorem monthKeys_single {grid : Grid} {idx : Int} {buckets : List MonthCount}
    {m : MonthCount} (hc : countEntriesByMonthWithColumn grid idx = some buckets)
    (hm : m ∈ buckets) :
    monthKeysToRemove [m.month] buckets = [(m.yearCode, m.code)] := by
  obtain ⟨hlen, hidx, hperb, hexist⟩ := countEntries_spec hc
  obtain ⟨hkeym, hdispm, hcountm, hrangem⟩ := hperb m hm
  have hfind : ∃ b, buckets.find? (fun b => decide (b.month = m.month)) = some b := by
    cases hf : buckets.find? (fun b => decide (b.month = m.month)) with
    | some b => exact ⟨b, rfl⟩
    | none =>
      exfalso
      have := List.find?_eq_none.mp hf m hm
      simp at this
  obtain ⟨b, hfb⟩ := hfind
  have hbmem := List.mem_of_find?_eq_some hfb
  have hbm : b.month = m.month := by
    have := List.find?_some hfb
    simpa using this
  obtain ⟨hkeyb, hdispb, _, hrangeb⟩ := hperb b hbmem
  have heq := displayName_inj hrangeb.1 hrangeb.2 hrangem.1 hrangem.2
    (by rw [← hdispb, ← hdispm, hbm])
  have hbk : b.monthYearKey = (m.yearCode, m.code) := by
    rw [hkeyb, heq.1, heq.2]
  unfold monthKeysToRemove
  simp [hfb, hbk]

/-! ## Claim theorems for the row filter -/

/-- C1 (amended): for every grid, every bucket list produced by
`countEntriesByMonthWithColumn(grid, idx)` and every bucket `m` in it,
filtering with `[m.displayName]` removes `m.count` rows attributed to that
month-year **plus** every row whose date cell is blank or unparseable:
kept rows + `m.count` + unparseable rows = total rows. -/
theorem count_filter_consistency_amended
    (grid : Grid) (idx : Int) (buckets : List MonthCount) (m : MonthCount)
    (hc : countEntriesByMonthWithColumn grid idx = some buckets)
    (hm : m ∈ buckets) :
    (filterRowsByMonths grid [m.month] buckets idx).length
      + m.count
      + ((grid.drop 1).filter (fun r => decide (rowKeyI idx r = none))).length
    = grid.length := by
  obtain ⟨hlen, hidx, hperb, hexist⟩ := countEntries_spec hc
  obtain ⟨hkeym, hdispm, hcountm, hrangem⟩ := hperb m hm
  have hkeys := monthKeys_single hc hm
  cases grid with
  | nil => simp at hlen
  | cons g0 rows =>
    have hfil : filterRowsByMonths (g0 :: rows) [m.month] buckets idx
        = g0 :: rows.filter (rowKept idx [(m.yearCode, m.code)]) := by
      rw [filterRowsByMonths]
      rw [if_neg (by simp [hidx]), hkeys]
    rw [hfil]
    have hsplit := filter_length_split idx (m.yearCode, m.code) rows
    simp only [List.drop_succ_cons, List.drop_zero] at hcountm
    simp only [List.length_cons, List.drop_succ_cons, List.drop_zero]
    omega

/-- C1 (counterexample to the claim as stated): on the spec's own
end-to-end grid the January-2024 bucket has count 1, but filtering with
`["January 2024"]` removes 2 rows (the blank-date row is removed too). -/
theorem count_filter_consistency_counterexample :
    countEntriesByMonthWithColumn
        [[Cell.str "Date", Cell.str "Amount", Cell.str "Doctor"],
         [Cell.str "10/01/2024", Cell.num 100, Cell.str "A"],
         [Cell.str "20/02/2024", Cell.num 200, Cell.str "B"],
         [Cell.str "", Cell.num 300, Cell.str "C"]] 0
      = some [⟨"January 2024", 1, 2024, (2024, 1), 1⟩,
              ⟨"February 2024", 2, 2024, (2024, 2), 1⟩] ∧
    (⟨"January 2024", 1, 2024, (2024, 1), 1⟩ : MonthCount).count = 1 ∧
    ([[Cell.str "Date", Cell.str "Amount", Cell.str "Doctor"],
      [Cell.str "10/01/2024", Cell.num 100, Cell.str "A"],
      [Cell.str "20/02/2024", Cell.num 200, Cell.str "B"],
      [Cell.str "", Cell.num 300, Cell.str "C"]] : Grid).length
      - (filterRowsByMonths
          [[Cell.str "Date", Cell.str "Amount", Cell.str "Doctor"],
           [Cell.str "10/01/2024", Cell.num 100, Cell.str "A"],
           [Cell.str "20/02/2024", Cell.num 200, Cell.str "B"],
           [Cell.str "", Cell.num 300, Cell.str "C"]]
          ["January 2024"]
          [⟨"January 2024", 1, 2024, (2024, 1), 1⟩,
           ⟨"February 2024", 2, 2024, (2024, 2), 1⟩] 0).length
      ≠ (⟨"January 2024", 1, 2024, (2024, 1), 1⟩ : MonthCount).count := by
  refine ⟨by decide, by decide, by decide⟩

/-- C8: the filter is the identity when the excluded-month list is empty or
the date-column index is −1. -/
theorem identity_filter_thm :
    ∀ (grid : Grid) (mc : List MonthCount) (idx : Int) (months : List String),
      filterRowsByMonths grid [] mc idx = grid ∧
      filterRowsByMonths grid months mc (-1) = grid := by
  intro grid mc idx months
  constructor
  · cases grid <;> simp [filterRowsByMonths]
  · cases grid <;> simp [filterRowsByMonths]

/-- Witness for C1 (amended) at the spec's end-to-end grid: 4 = 4. -/
theorem count_filter_consistency_amended_witness :
    (filterRowsByMonths
        [[Cell.str "Date", Cell.str "Amount", Cell.str "Doctor"],
         [Cell.str "10/01/2024", Cell.num 100, Cell.str "A"],
         [Cell.str "20/02/2024", Cell.num 200, Cell.str "B"],
         [Cell.str "", Cell.num 300, Cell.str "C"]]
        ["January 2024"]
        [⟨"January 2024", 1, 2024, (2024, 1), 1⟩,
         ⟨"February 2024", 2, 2024, (2024, 2), 1⟩] 0).length
      + (⟨"January 2024", 1, 2024, (2024, 1), 1⟩ : MonthCount).count
      + ((([[Cell.str "Date", Cell.str "Amount", Cell.str "Doctor"],
            [Cell.str "10/01/2024", Cell.num 100, Cell.str "A"],
            [Cell.str "20/02/2024", Cell.num 200, Cell.str "B"],
            [Cell.str "", Cell.num 300, Cell.str "C"]] : Grid).drop 1).filter
          (fun r => decide (rowKeyI 0 r = none))).length
    = ([[Cell.str "Date", Cell.str "Amount", Cell.str "Doctor"],
        [Cell.str "10/01/2024", Cell.num 100, Cell.str "A"],
        [Cell.str "20/02/2024", Cell.num 200, Cell.str "B"],
        [Cell.str "", Cell.num 300, Cell.str "C"]] : Grid).length :=
  count_filter_consistency_amended _ 0 _
    ⟨"January 2024", 1, 2024, (2024, 1), 1⟩ (by decide) (by decide)

/-- C2: whenever date-based filtering is active (nonempty excluded list,
date column selected), every row surviving `filterRowsByMonths` has a
non-blank, parseable date cell — so every blank or unparseable data row is
removed; and on the spec's end-to-end grid, excluding "January 2024"
leaves exactly the February row, removing 2 of the 3 data rows. -/
theorem blank_unparseable_drop_thm :
    (∀ (grid : Grid) (months : List String) (mc : List MonthCount) (idx : Int),
        months ≠ [] → idx ≠ -1 →
        ∀ row ∈ (filterRowsByMonths grid months mc idx).drop 1,
          isBlankDateCell (cellAtI row idx) = false ∧ rowKeyI idx row ≠ none)
    ∧ filterRowsByMonths
        [[Cell.str "Date", Cell.str "Amount", Cell.str "Doctor"],
         [Cell.str "10/01/2024", Cell.num 100, Cell.str "A"],
         [Cell.str "20/02/2024", Cell.num 200, Cell.str "B"],
         [Cell.str "", Cell.num 300, Cell.str "C"]]
        ["January 2024"]
        [⟨"January 2024", 1, 2024, (2024, 1), 1⟩,
         ⟨"February 2024", 2, 2024, (2024, 2), 1⟩] 0
      = [[Cell.str "Date", Cell.str "Amount", Cell.str "Doctor"],
         [Cell.str "20/02/2024", Cell.num 200, Cell.str "B"]]
    ∧ ([[Cell.str "Date", Cell.str "Amount", Cell.str "Doctor"],
        [Cell.str "10/01/2024", Cell.num 100, Cell.str "A"],
        [Cell.str "20/02/2024", Cell.num 200, Cell.str "B"],
        [Cell.str "", Cell.num 300, Cell.str "C"]] : Grid).length
        - (filterRowsByMonths
            [[Cell.str "Date", Cell.str "Amount", Cell.str "Doctor"],
             [Cell.str "10/01/2024", Cell.num 100, Cell.str "A"],
             [Cell.str "20/02/2024", Cell.num 200, Cell.str "B"],
             [Cell.str "", Cell.num 300, Cell.str "C"]]
            ["January 2024"]
            [⟨"January 2024", 1, 2024, (2024, 1), 1⟩,
             ⟨"February 2024", 2, 2024, (2024, 2), 1⟩] 0).length = 2 := by
  refine ⟨?_, by decide, by decide⟩
  intro grid months mc idx hmonths hidx row hrow
  cases grid with
  | nil => simp [filterRowsByMonths] at hrow
  | cons g0 rows =>
    rw [filterRowsByMonths, if_neg (by simp [hmonths, hidx])] at hrow
    simp only [List.drop_succ_cons, List.drop_zero] at hrow
    have hkept := List.of_mem_filter hrow
    obtain ⟨k, hk, _⟩ := rowKept_iff.mp hkept
    refine ⟨?_, by rw [hk]; simp⟩
    by_contra hblank
    simp only [Bool.not_eq_false] at hblank
    have : rowKeyI idx row = none := by
      unfold rowKeyI
      rw [isBlank_parse_none hblank]
      rfl
    rw [this] at hk
    cases hk

/-- Witness for C2 at the spec's end-to-end grid: the surviving February
row is non-blank and parseable. -/
theorem blank_unparseable_drop_witness :
    isBlankDateCell (cellAtI [Cell.str "20/02/2024", Cell.num 200, Cell.str "B"] 0) = false ∧
    rowKeyI 0 [Cell.str "20/02/2024", Cell.num 200, Cell.str "B"] ≠ none :=
  blank_unparseable_drop_thm.1
    [[Cell.str "Date", Cell.str "Amount", Cell.str "Doctor"],
     [Cell.str "10/01/2024", Cell.num 100, Cell.str "A"],
     [Cell.str "20/02/2024", Cell.num 200, Cell.str "B"],
     [Cell.str "", Cell.num 300, Cell.str "C"]]
    ["January 2024"]
    [⟨"January 2024", 1, 2024, (2024, 1), 1⟩,
     ⟨"February 2024", 2, 2024, (2024, 2), 1⟩] 0
    (by decide) (by decide)
    [Cell.str "20/02/2024", Cell.num 200, Cell.str "B"] (by decide)

/-- C3: with original headers `[A,B,C]`, added column `D`, a column-order
spec `[C,A,D,B]` given as positions 2,0,3,1 into the combined header list,
and `B` selected for removal, `processExcelData` re-resolves the order by
name against the post-addition header row, reorders, and removes `B`
last — the final header row is `[C,A,D]` and the data row follows it. -/
theorem reorder_resolution_under_removal_thm :
    processExcelData
        [[Cell.str "A", Cell.str "B", Cell.str "C"],
         [Cell.num 1, Cell.num 2, Cell.num 3]]
        0 [Cell.str "B"] [] [] (-1)
        (some [Cell.str "D"]) (some [2, 0, 3, 1])
        (some [Cell.str "A", Cell.str "B", Cell.str "C"]) [Cell.str "D"]
      = [[Cell.str "C", Cell.str "A", Cell.str "D"],
         [Cell.num 3, Cell.num 1, Cell.str ""]] := by
  decide

/-! ## Round trip of column edits (C7) -/

theorem findIdx_go_append_singleton {X : Cell} :
    ∀ (H : List Cell) (i : Nat), X ∉ H →
      List.findIdx? (fun x => decide (x = X)) (H ++ [X]) i = some (i + H.length) := by
  intro H
  induction H with
  | nil =>
    intro i _
    simp [List.findIdx?]
  | cons a H ih =>
    intro i hX
    have ha : ¬(a = X) := fun h => hX (h ▸ List.mem_cons_self a H)
    show (if decide (a = X) = true then some i
      else List.findIdx? (fun x => decide (x = X)) (H ++ [X]) (i + 1)) = some (i + (a :: H).length)
    rw [if_neg (by simpa using ha), ih (i + 1) (fun h => hX (List.mem_cons_of_mem a h))]
    simp
    omega

theorem findIdx_append_singleton {X : Cell} (H : List Cell) (hX : X ∉ H) :
    (H ++ [X]).findIdx? (fun x => decide (x = X)) = some H.length := by
  simpa using findIdx_go_append_singleton H 0 hX

theorem dropIdxFilter_append_last {L : Nat} :
    ∀ (l : List Cell) (x : Cell) (i : Nat), i + l.length = L →
      dropIdxFilter [L] i (l ++ [x]) = l := by
  intro l
  induction l with
  | nil =>
    intro x i hi
    simp only [List.length_nil, Nat.add_zero] at hi
    subst hi
    simp [dropIdxFilter]
  | cons c rest ih =>
    intro x i hi
    simp only [List.length_cons] at hi
    have hne : ¬ i ∈ ([L] : List Nat) := by simp; omega
    simp only [List.cons_append, dropIdxFilter, hne, if_false]
    exact congrArg (fun t => c :: t) (ih x (i + 1) (by omega))

theorem map_self_of_mem {l : List (List Cell)} {f : List Cell → List Cell}
    (h : ∀ r ∈ l, f r = r) : l.map f = l := by
  induction l with
  | nil => rfl
  | cons a t ih =>
    simp [h a (List.mem_cons_self a t), ih (fun r hr => h r (List.mem_cons_of_mem a hr))]

/-- C7 (amended): adding a column named `X` and then removing `X` restores
the grid, provided the header names are unique and do not contain `X`
**and every data row has exactly the header row's length** (on ragged rows
the round trip pads them — see the counterexample). -/
theorem round_trip_amended (H : List Cell) (rows : List (List Cell)) (X : Cell)
    (hX : X ∉ H) (_hnodup : H.Nodup) (hrect : ∀ r ∈ rows, r.length = H.length) :
    removeColumns (addNewColumns (H :: rows) [X]) [X] = H :: rows := by
  unfold addNewColumns removeColumns
  have hidxs : ([X] : List Cell).filterMap
      (fun h => ((H ++ [X]) :: rows.map
          (fun row => row ++ List.replicate ([X] : List Cell).length (Cell.str "")) : Grid).getD 0 []
        |>.findIdx? (fun x => decide (x = h))) = [H.length] := by
    simp only [List.getD_cons_zero]
    simp [List.filterMap, findIdx_append_singleton H hX]
  simp only [List.map_cons, hidxs]
  rw [List.map_map]
  congr 1
  · exact dropIdxFilter_append_last H X 0 (by simp)
  · apply map_self_of_mem
    intro r hr
    show dropIdxFilter [H.length] 0 (r ++ List.replicate 1 (Cell.str "")) = r
    rw [List.replicate_one]
    exact dropIdxFilter_append_last r (Cell.str "") 0 (by simpa using hrect r hr)

/-- C7 (counterexample to the claim as stated): on a grid with a ragged
(short) data row, the round trip pads the row with an empty-string cell
instead of restoring it. -/
theorem round_trip_counterexample :
    removeColumns (addNewColumns [[Cell.str "A"], []] [Cell.str "X"]) [Cell.str "X"]
        = [[Cell.str "A"], [Cell.str ""]] ∧
    ([[Cell.str "A"], [Cell.str ""]] : Grid) ≠ [[Cell.str "A"], []] := by
  refine ⟨by decide, by decide⟩

/-- Witness for C7 (amended) on a rectangular 2-column grid. -/
theorem round_trip_amended_witness :
    removeColumns
        (addNewColumns [[Cell.str "A", Cell.str "B"], [Cell.num 1, Cell.num 2]] [Cell.str "X"])
        [Cell.str "X"]
      = [[Cell.str "A", Cell.str "B"], [Cell.num 1, Cell.num 2]] :=
  round_trip_amended [Cell.str "A", Cell.str "B"] [[Cell.num 1, Cell.num 2]] (Cell.str "X")
    (by decide) (by decide) (by decide)

/-! ## Split-impossible detection (C9) -/

/-- C9: whenever the header of the chosen date column is among the headers
selected for removal, `separateDataByMonths` returns the distinct
cannot-split outcome `none` without producing any buckets. -/
theorem cannot_split_date_column_removed_thm
    (jsonData : Grid) (selectedDateColumnIndex : Int) (headerRowIndex : Nat)
    (selectedHeaders : List Cell) (selectedMonths : List String)
    (monthCounts : List MonthCount) (allNewColumns : Option (List Cell))
    (columnOrder : Option (List Nat)) (headers : Option (List Cell))
    (addedCustomColumns : List Cell)
    (hmem : cellAtI (jsonData.getD headerRowIndex []) selectedDateColumnIndex
      ∈ selectedHeaders) :
    separateDataByMonths jsonData selectedDateColumnIndex headerRowIndex selectedHeaders
      selectedMonths monthCounts allNewColumns columnOrder headers addedCustomColumns
      = none := by
  unfold separateDataByMonths
  split
  · rfl
  · dsimp only
    rw [if_pos hmem]

/-- Witness for C9: removing the `Date` header of the chosen date column
makes the splitter return `none`. -/
theorem cannot_split_date_column_removed_witness :
    separateDataByMonths
        [[Cell.str "Date"], [Cell.str "15/01/2023"], [Cell.str "15/01/2024"]]
        0 0 [Cell.str "Date"] [] [] none none none []
      = none :=
  cannot_split_date_column_removed_thm _ 0 0 [Cell.str "Date"] [] [] none none none []
    (by decide)

/-! ## Serial-number branch of the parser (C5) -/

/-- C5 (amended): a number outside the open interval (25000, 50000) is
never converted via the 1899-12-30 serial epoch — 0 is falsy and parses to
`none`, and any other such number is parsed exactly as its decimal string
representation (which can still succeed via the generic fallback, e.g.
2000 ↦ January 2000); a number strictly inside the interval is converted
via the epoch (e.g. 45000 ↦ March 2023). -/
theorem serial_range_amended_thm :
    (∀ (n : Int) (fmt : String), ¬(25000 < n ∧ n < 50000) → n ≠ 0 →
        getMonthAndYearFromDate (Cell.num n) fmt
          = parseDateString fmt (trimChars (intToString n).data))
    ∧ (∀ fmt : String, getMonthAndYearFromDate (Cell.num 0) fmt = none)
    ∧ getMonthAndYearFromDate (Cell.num 45000) = some ⟨3, 2023⟩
    ∧ getMonthAndYearFromDate (Cell.num 2000) = some ⟨1, 2000⟩ := by
  refine ⟨?_, ?_, by decide, by decide⟩
  · intro n fmt hrange hn
    unfold getMonthAndYearFromDate
    rw [if_neg (by simp [cellFalsy, hn])]
    show (if 25000 < n ∧ n < 50000 then _ else
        parseDateString fmt (trimChars (cellToString (Cell.num n)).data))
      = parseDateString fmt (trimChars (intToString n).data)
    rw [if_neg hrange]
    rfl
  · intro fmt
    rfl

/-- C5 (counterexample to the claim as stated): the numeric value 2000 is
outside the serial range yet is NOT rejected — it parses to January 2000
via the string fallback. -/
theorem serial_range_counterexample :
    ¬(25000 < (2000 : Int) ∧ (2000 : Int) < 50000) ∧
    getMonthAndYearFromDate (Cell.num 2000) ≠ none ∧
    getMonthAndYearFromDate (Cell.num 2000) = some ⟨1, 2000⟩ := by
  refine ⟨by decide, by decide, by decide⟩

/-- Witness for C5 (amended) at 60000: the serial conversion is bypassed
and the value is parsed as the string "60000". -/
theorem serial_range_amended_witness :
    getMonthAndYearFromDate (Cell.num 60000) "DD/MM/YYYY"
      = parseDateString "DD/MM/YYYY" (trimChars (intToString 60000).data) :=
  serial_range_amended_thm.1 60000 "DD/MM/YYYY" (by decide) (by decide)

/-! ## Detector lemmas (C6, C10) -/

theorem scoredOf_fst_of_base0 (sampleRows : List (List Cell)) (i : Nat) (mt : String) :
    (scoredOf sampleRows i (0, mt)).1 ≤ 700 := by
  unfold scoredOf
  split
  · rename_i hc
    simp at hc
  · split
    · dsimp only
      split
      · simp
      · simp
    · simp

theorem baseScoreOf_none {headerStr : List Char}
    (hmw : multiWordMatchOf headerStr = none) (hkw : keywordMatchOf headerStr = none) :
    baseScoreOf headerStr = (0, "") := by
  unfold baseScoreOf
  rw [hmw, hkw]

/-- Strategy 4 alone never pushes a candidate: with no keyword match the
confidence is at most exactly 0.7, which the strict `> 0.7` cutoff
rejects. -/
theorem resolveDateColumn_no_keyword {sampleRows : List (List Cell)} {i : Nat} {header : Cell}
    (hmw : multiWordMatchOf (headerStrOf header) = none)
    (hkw : keywordMatchOf (headerStrOf header) = none) :
    resolveDateColumn sampleRows i header = none := by
  unfold resolveDateColumn
  split
  · rfl
  · split
    · rfl
    · rw [baseScoreOf_none hmw hkw]
      rw [if_neg (by have := scoredOf_fst_of_base0 sampleRows i ""; omega)]

theorem resolveDateColumn_some_core {sampleRows : List (List Cell)} {i : Nat}
    {header : Cell} {cand : DateColumnCandidate}
    (h : resolveDateColumn sampleRows i header = some cand) :
    cand.header = header ∧ cand.index = i ∧
    excludedContains (headerStrOf header) = false := by
  unfold resolveDateColumn at h
  split at h
  · cases h
  · split at h
    · cases h
    · rename_i hfalsy hexc
      split at h
      · injection h with h2
        subst h2
        exact ⟨rfl, rfl, by simpa using hexc⟩
      · cases h

/-- Anatomy of a pushed candidate: its header and index are the column's,
the column is not excluded, and a keyword or multi-word pattern matched. -/
theorem resolveDateColumn_some {sampleRows : List (List Cell)} {i : Nat} {header : Cell}
    {cand : DateColumnCandidate}
    (h : resolveDateColumn sampleRows i header = some cand) :
    cand.header = header ∧ cand.index = i ∧
    excludedContains (headerStrOf header) = false ∧
    ((multiWordMatchOf (headerStrOf header)).isSome ∨
      (keywordMatchOf (headerStrOf header)).isSome) := by
  obtain ⟨h1, h2, h3⟩ := resolveDateColumn_some_core h
  refine ⟨h1, h2, h3, ?_⟩
  by_cases hmw : multiWordMatchOf (headerStrOf header) = none
  · by_cases hkw : keywordMatchOf (headerStrOf header) = none
    · rw [resolveDateColumn_no_keyword hmw hkw] at h
      cases h
    · exact Or.inr (Option.isSome_iff_ne_none.mpr hkw)
  · exact Or.inl (Option.isSome_iff_ne_none.mpr hmw)

/-- Membership in the detector's output comes from some column's pushed
candidate. -/
theorem findAllDateColumns_mem {headerRow : List Cell} {sampleRows : List (List Cell)}
    {cand : DateColumnCandidate} (h : cand ∈ findAllDateColumns headerRow sampleRows) :
    ∃ i, resolveDateColumn sampleRows i (cellAtN headerRow i) = some cand := by
  unfold findAllDateColumns at h
  split at h
  · cases h
  · rw [mem_insertionSortBy] at h
    obtain ⟨i, _, hres⟩ := List.mem_filterMap.mp h
    exact ⟨i, hres⟩

/-- C6: `findAllDateColumns` never returns a candidate whose header
contains an excluded keyword — the exclusion overrides every keyword and
content signal; in particular a "Claim ID" column with purely numeric
values in the plausible serial range is never classified as a date
column. -/
theorem excluded_keyword_override_thm :
    (∀ (headerRow : List Cell) (sampleRows : List (List Cell)),
        ∀ cand ∈ findAllDateColumns headerRow sampleRows,
          excludedContains (headerStrOf cand.header) = false)
    ∧ findAllDateColumns [Cell.str "Claim ID"] [[Cell.num 30000], [Cell.num 31000]] = [] := by
  refine ⟨?_, by decide⟩
  intro headerRow sampleRows cand hcand
  obtain ⟨i, hres⟩ := findAllDateColumns_mem hcand
  obtain ⟨h1, _, h3, _⟩ := resolveDateColumn_some hres
  rw [h1]
  exact h3

/-- Witness for C6: a genuine date column ("Service Date") does produce a
candidate, whose header the theorem then shows is keyword-clean. -/
theorem excluded_keyword_override_witness :
    excludedContains (headerStrOf
      ((⟨0, Cell.str "Service Date", 950,
        "Multi-word pattern: \"service date\" + High data confidence (1/1)",
        Cell.str "Service Date"⟩ : DateColumnCandidate)).header) = false :=
  excluded_keyword_override_thm.1 [Cell.str "Service Date"] [[Cell.str "10/01/2024"]]
    ⟨0, Cell.str "Service Date", 950,
      "Multi-word pattern: \"service date\" + High data confidence (1/1)",
      Cell.str "Service Date"⟩ (by decide)

/-- C10: content evidence alone never qualifies a column — every candidate
returned by `findAllDateColumns` had a multi-word or keyword header match;
a keyword-less column is rejected by the per-column loop, because the
pure-data-analysis branch yields confidence exactly 0.7 (when it fires at
all), which the strict `> 0.7` cutoff rejects. -/
theorem pure_data_never_qualifies_thm :
    (∀ (headerRow : List Cell) (sampleRows : List (List Cell)),
        ∀ cand ∈ findAllDateColumns headerRow sampleRows,
          (multiWordMatchOf (headerStrOf cand.header)).isSome ∨
          (keywordMatchOf (headerStrOf cand.header)).isSome)
    ∧ (∀ (sampleRows : List (List Cell)) (i : Nat) (header : Cell),
        multiWordMatchOf (headerStrOf header) = none →
        keywordMatchOf (headerStrOf header) = none →
        resolveDateColumn sampleRows i header = none)
    ∧ (∀ (sampleRows : List (List Cell)) (i : Nat) (mt : String),
        ((scoredOf sampleRows i (0, mt)).1 = 0 ∨ (scoredOf sampleRows i (0, mt)).1 = 700)
        ∧ ¬(700 < (scoredOf sampleRows i (0, mt)).1)) := by
  refine ⟨?_, ?_, ?_⟩
  · intro headerRow sampleRows cand hcand
    obtain ⟨i, hres⟩ := findAllDateColumns_mem hcand
    obtain ⟨h1, _, _, h4⟩ := resolveDateColumn_some hres
    rw [h1]
    exact h4
  · intro sampleRows i header hmw hkw
    exact resolveDateColumn_no_keyword hmw hkw
  · intro sampleRows i mt
    constructor
    · unfold scoredOf
      split
      · rename_i hc
        simp at hc
      · split
        · dsimp only
          split
          · simp
          · simp
        · simp
    · have := scoredOf_fst_of_base0 sampleRows i mt
      omega

/-- Witness for C10: the "Visit Date" candidate arose from a keyword or
multi-word match. -/
theorem pure_data_never_qualifies_witness :
    (multiWordMatchOf (headerStrOf
      ((⟨0, Cell.str "Visit Date", 950,
        "Multi-word pattern: \"visit date\" + High data confidence (1/1)",
        Cell.str "Visit Date"⟩ : DateColumnCandidate)).header)).isSome ∨
    (keywordMatchOf (headerStrOf
      ((⟨0, Cell.str "Visit Date", 950,
        "Multi-word pattern: \"visit date\" + High data confidence (1/1)",
        Cell.str "Visit Date"⟩ : DateColumnCandidate)).header)).isSome :=
  pure_data_never_qualifies_thm.1 [Cell.str "Visit Date"] [[Cell.str "01/02/2024"]]
    ⟨0, Cell.str "Visit Date", 950,
      "Multi-word pattern: \"visit date\" + High data confidence (1/1)",
      Cell.str "Visit Date"⟩ (by decide)

/-! ## Well-formedness of the splitter's month groups (C4) -/

/-- Invariant of a splitter group: its key and name are determined by its
`(year, code)` fields, the month code is in range, and every bucketed row
parses to exactly that month-year at the splitter's date column `pIdx`. -/
def monthGroupWF (pIdx : Nat) (g : MonthGroup) : Prop :=
  g.monthYearKey = (g.year, g.code) ∧
  g.name = monthName g.code ++ " " ++ natToString g.year ∧
  1 ≤ g.code ∧ g.code ≤ 12 ∧
  ∀ r ∈ g.rows, ∃ d : DateMY,
    getMonthAndYearFromDate (cellAtN r pIdx) = some d ∧ d.year = g.year ∧ d.month = g.code

theorem addRowToGroups_wf {pIdx : Nat} {row : List Cell} {d : DateMY}
    (hd : getMonthAndYearFromDate (cellAtN row pIdx) = some d) :
    ∀ gs : List MonthGroup, (∀ g ∈ gs, monthGroupWF pIdx g) →
      ∀ g ∈ addRowToGroups d.year d.month row gs, monthGroupWF pIdx g := by
  intro gs
  induction gs with
  | nil =>
    intro _ g hg
    simp only [addRowToGroups, List.mem_singleton] at hg
    subst hg
    have hrange := getMonthAndYearFromDate_range hd
    refine ⟨rfl, rfl, hrange.1, hrange.2.1, ?_⟩
    intro r hr
    simp only [List.mem_singleton] at hr
    subst hr
    exact ⟨d, hd, rfl, rfl⟩
  | cons g0 gs ih =>
    intro hwf g hg
    simp only [addRowToGroups] at hg
    split at hg
    · rename_i hkey
      rcases List.mem_cons.mp hg with rfl | hmem
      · obtain ⟨hk0, hn0, hc1, hc2, hrows⟩ := hwf g0 (List.mem_cons_self g0 gs)
        have hyc : g0.year = d.year ∧ g0.code = d.month := by
          rw [hk0] at hkey
          exact ⟨congrArg Prod.fst hkey, congrArg Prod.snd hkey⟩
        refine ⟨hk0, hn0, hc1, hc2, ?_⟩
        intro r hr
        rcases List.mem_append.mp hr with hr | hr
        · exact hrows r hr
        · simp only [List.mem_singleton] at hr
          subst hr
          exact ⟨d, hd, hyc.1.symm, hyc.2.symm⟩
      · exact hwf g (List.mem_cons_of_mem g0 hmem)
    · rcases List.mem_cons.mp hg with rfl | hmem
      · exact hwf g (List.mem_cons_self g gs)
      · exact ih (fun g2 hg2 => hwf g2 (List.mem_cons_of_mem g0 hg2)) g hmem

theorem separateScan_wf (pIdx : Nat) :
    ∀ (rows : List (List Cell)) (st : List MonthGroup × Nat × Nat),
      (∀ g ∈ st.1, monthGroupWF pIdx g) →
      ∀ g ∈ (rows.foldl
          (fun st row =>
            match getMonthAndYearFromDate (cellAtN row pIdx) with
            | some r => (addRowToGroups r.year r.month row st.1, st.2.1 + 1, st.2.2)
            | none => (st.1, st.2.1, st.2.2 + 1))
          st).1, monthGroupWF pIdx g := by
  intro rows
  induction rows with
  | nil => intro st h; exact h
  | cons row rows ih =>
    intro st hst
    simp only [List.foldl_cons]
    rcases hp : getMonthAndYearFromDate (cellAtN row pIdx) with _ | d
    · simp only [hp]
      exact ih _ hst
    · simp only [hp]
      exact ih _ (addRowToGroups_wf hp st.1 hst)

/-- Every month group a successful `separateDataByMonths` returns is
well-formed with respect to the re-found date column position. -/
theorem separate_spec (jsonData : Grid) (selectedDateColumnIndex : Int)
    (headerRowIndex : Nat) (selectedHeaders : List Cell) (selectedMonths : List String)
    (monthCounts : List MonthCount) (allNewColumns : Option (List Cell))
    (columnOrder : Option (List Nat)) (headers : Option (List Cell))
    (addedCustomColumns : List Cell) (res : SeparatedData)
    (hsep : separateDataByMonths jsonData selectedDateColumnIndex headerRowIndex
      selectedHeaders selectedMonths monthCounts allNewColumns columnOrder headers
      addedCustomColumns = some res) :
    ∃ pIdx, res.headerRow.findIdx?
        (fun h => decide (h = cellAtI (jsonData.getD headerRowIndex [])
          selectedDateColumnIndex)) = some pIdx ∧
      ∀ g ∈ res.monthsWithData, monthGroupWF pIdx g := by
  unfold separateDataByMonths at hsep
  split at hsep
  · cases hsep
  · dsimp only at hsep
    split at hsep
    · cases hsep
    · split at hsep
      · cases hsep
      · split at hsep
        · cases hsep
        · rename_i pIdx hfind
          injection hsep with hres
          subst hres
          refine ⟨pIdx, by simpa using hfind, ?_⟩
          intro g hg
          rw [mem_insertionSortBy] at hg
          have hg3 := List.mem_of_mem_filter hg
          exact separateScan_wf pIdx _ ([], 0, 0) (by simp) g hg3

/-- C4: two data rows whose date cells parse to the same month in different
years always land under two distinct year-month keys with distinct display
names ("January 2023" vs "January 2024"), never merged — both in
`countEntriesByMonthWithColumn` and in `separateDataByMonths`. -/
theorem month_year_disambiguation_thm :
    (∀ (grid : Grid) (idx : Int) (buckets : List MonthCount)
        (r1 r2 : List Cell) (m y1 y2 : Nat),
        countEntriesByMonthWithColumn grid idx = some buckets →
        r1 ∈ grid.drop 1 → r2 ∈ grid.drop 1 →
        rowKeyI idx r1 = some (y1, m) → rowKeyI idx r2 = some (y2, m) →
        y1 ≠ y2 →
        ∃ b1 ∈ buckets, ∃ b2 ∈ buckets,
          b1.monthYearKey = (y1, m) ∧ b2.monthYearKey = (y2, m) ∧
          b1.month = monthName m ++ " " ++ natToString y1 ∧
          b2.month = monthName m ++ " " ++ natToString y2 ∧
          b1.month ≠ b2.month ∧ b1 ≠ b2)
    ∧ (∀ (jsonData : Grid) (selectedDateColumnIndex : Int) (headerRowIndex : Nat)
        (selectedHeaders : List Cell) (selectedMonths : List String)
        (monthCounts : List MonthCount) (allNewColumns : Option (List Cell))
        (columnOrder : Option (List Nat)) (headers : Option (List Cell))
        (addedCustomColumns : List Cell) (res : SeparatedData) (pIdx : Nat)
        (g1 g2 : MonthGroup) (r1 r2 : List Cell) (m y1 y2 : Nat),
        separateDataByMonths jsonData selectedDateColumnIndex headerRowIndex
          selectedHeaders selectedMonths monthCounts allNewColumns columnOrder headers
          addedCustomColumns = some res →
        res.headerRow.findIdx? (fun h => decide (h = cellAtI
          (jsonData.getD headerRowIndex []) selectedDateColumnIndex)) = some pIdx →
        g1 ∈ res.monthsWithData → g2 ∈ res.monthsWithData →
        r1 ∈ g1.rows → r2 ∈ g2.rows →
        getMonthAndYearFromDate (cellAtN r1 pIdx) = some ⟨m, y1⟩ →
        getMonthAndYearFromDate (cellAtN r2 pIdx) = some ⟨m, y2⟩ →
        y1 ≠ y2 →
        g1.monthYearKey = (y1, m) ∧ g2.monthYearKey = (y2, m) ∧
        g1.name = monthName m ++ " " ++ natToString y1 ∧
        g2.name = monthName m ++ " " ++ natToString y2 ∧
        g1.name ≠ g2.name ∧ g1 ≠ g2) := by
  constructor
  · intro grid idx buckets r1 r2 m y1 y2 hc hr1 hr2 hk1 hk2 hy
    obtain ⟨hlen, hidx, hperb, hexist⟩ := countEntries_spec hc
    obtain ⟨b1, hb1mem, hb1key⟩ := hexist (y1, m) ⟨r1, hr1, hk1⟩
    obtain ⟨b2, hb2mem, hb2key⟩ := hexist (y2, m) ⟨r2, hr2, hk2⟩
    obtain ⟨hb1k, hb1disp, _, hb1r⟩ := hperb b1 hb1mem
    obtain ⟨hb2k, hb2disp, _, hb2r⟩ := hperb b2 hb2mem
    have hb1yc : b1.yearCode = y1 ∧ b1.code = m := by
      rw [hb1k] at hb1key
      exact ⟨congrArg Prod.fst hb1key, congrArg Prod.snd hb1key⟩
    have hb2yc : b2.yearCode = y2 ∧ b2.code = m := by
      rw [hb2k] at hb2key
      exact ⟨congrArg Prod.fst hb2key, congrArg Prod.snd hb2key⟩
    have hd1 : b1.month = monthName m ++ " " ++ natToString y1 := by
      rw [hb1disp, hb1yc.1, hb1yc.2]
    have hd2 : b2.month = monthName m ++ " " ++ natToString y2 := by
      rw [hb2disp, hb2yc.1, hb2yc.2]
    have hdisp : b1.month ≠ b2.month := by
      rw [hd1, hd2]
      intro hEq
      have hm12 : 1 ≤ m ∧ m ≤ 12 := by
        rw [hb1yc.2] at hb1r
        exact hb1r
      exact hy (displayName_inj hm12.1 hm12.2 hm12.1 hm12.2 hEq).2
    refine ⟨b1, hb1mem, b2, hb2mem, hb1key, hb2key, hd1, hd2, hdisp, ?_⟩
    intro hEq
    rw [hEq] at hb1key
    rw [hb2key] at hb1key
    exact hy (congrArg Prod.fst hb1key).symm
  · intro jsonData idx hri selH selM mc anc co hs acc res pIdx g1 g2 r1 r2 m y1 y2
      hsep hfind hg1 hg2 hr1 hr2 hp1 hp2 hy
    obtain ⟨pIdx', hfind', hwf⟩ := separate_spec jsonData idx hri selH selM mc anc co hs
      acc res hsep
    rw [hfind] at hfind'
    injection hfind' with hpe
    subst hpe
    obtain ⟨hk1, hn1, hc1a, hc1b, hrows1⟩ := hwf g1 hg1
    obtain ⟨hk2, hn2, hc2a, hc2b, hrows2⟩ := hwf g2 hg2
    obtain ⟨d1, hd1, hd1y, hd1m⟩ := hrows1 r1 hr1
    obtain ⟨d2, hd2, hd2y, hd2m⟩ := hrows2 r2 hr2
    rw [hp1] at hd1
    injection hd1 with hd1e
    subst hd1e
    rw [hp2] at hd2
    injection hd2 with hd2e
    subst hd2e
    have hy1 : g1.year = y1 := hd1y.symm
    have hm1 : g1.code = m := hd1m.symm
    have hy2 : g2.year = y2 := hd2y.symm
    have hm2 : g2.code = m := hd2m.symm
    have hg1key : g1.monthYearKey = (y1, m) := by rw [hk1, hy1, hm1]
    have hg2key : g2.monthYearKey = (y2, m) := by rw [hk2, hy2, hm2]
    have hg1name : g1.name = monthName m ++ " " ++ natToString y1 := by
      rw [hn1, hy1, hm1]
    have hg2name : g2.name = monthName m ++ " " ++ natToString y2 := by
      rw [hn2, hy2, hm2]
    have hname : g1.name ≠ g2.name := by
      rw [hg1name, hg2name]
      intro hEq
      rw [hm1] at hc1a hc1b
      exact hy (displayName_inj hc1a hc1b hc1a hc1b hEq).2
    refine ⟨hg1key, hg2key, hg1name, hg2name, hname, ?_⟩
    intro hEq
    rw [hEq] at hg1key
    rw [hg2key] at hg1key
    exact hy (congrArg Prod.fst hg1key).symm

/-- Witness for C4 on rows dated 15/01/2023 and 15/01/2024: distinct
buckets in the aggregator and distinct groups in the splitter. -/
theorem month_year_disambiguation_witness :
    (∃ b1 ∈ [(⟨"January 2023", 1, 2023, (2023, 1), 1⟩ : MonthCount),
             ⟨"January 2024", 1, 2024, (2024, 1), 1⟩],
      ∃ b2 ∈ [(⟨"January 2023", 1, 2023, (2023, 1), 1⟩ : MonthCount),
              ⟨"January 2024", 1, 2024, (2024, 1), 1⟩],
        b1.monthYearKey = (2023, 1) ∧ b2.monthYearKey = (2024, 1) ∧
        b1.month = monthName 1 ++ " " ++ natToString 2023 ∧
        b2.month = monthName 1 ++ " " ++ natToString 2024 ∧
        b1.month ≠ b2.month ∧ b1 ≠ b2)
    ∧ ((⟨"January 2023", 1, 2023, (2023, 1), [[Cell.str "15/01/2023"]]⟩ : MonthGroup).monthYearKey
          = (2023, 1) ∧
       (⟨"January 2024", 1, 2024, (2024, 1), [[Cell.str "15/01/2024"]]⟩ : MonthGroup).monthYearKey
          = (2024, 1) ∧
       (⟨"January 2023", 1, 2023, (2023, 1), [[Cell.str "15/01/2023"]]⟩ : MonthGroup).name
          = monthName 1 ++ " " ++ natToString 2023 ∧
       (⟨"January 2024", 1, 2024, (2024, 1), [[Cell.str "15/01/2024"]]⟩ : MonthGroup).name
          = monthName 1 ++ " " ++ natToString 2024 ∧
       (⟨"January 2023", 1, 2023, (2023, 1), [[Cell.str "15/01/2023"]]⟩ : MonthGroup).name
          ≠ (⟨"January 2024", 1, 2024, (2024, 1), [[Cell.str "15/01/2024"]]⟩ : MonthGroup).name ∧
       (⟨"January 2023", 1, 2023, (2023, 1), [[Cell.str "15/01/2023"]]⟩ : MonthGroup)
          ≠ ⟨"January 2024", 1, 2024, (2024, 1), [[Cell.str "15/01/2024"]]⟩) := by
  constructor
  · exact month_year_disambiguation_thm.1
      [[Cell.str "Date"], [Cell.str "15/01/2023"], [Cell.str "15/01/2024"]] 0
      [⟨"January 2023", 1, 2023, (2023, 1), 1⟩, ⟨"January 2024", 1, 2024, (2024, 1), 1⟩]
      [Cell.str "15/01/2023"] [Cell.str "15/01/2024"] 1 2023 2024
      (by decide) (by decide) (by decide) (by decide) (by decide) (by decide)
  · exact month_year_disambiguation_thm.2
      [[Cell.str "Date"], [Cell.str "15/01/2023"], [Cell.str "15/01/2024"]] 0 0
      [] [] [] none none none []
      ⟨[Cell.str "Date"],
       [⟨"January 2023", 1, 2023, (2023, 1), [[Cell.str "15/01/2023"]]⟩,
        ⟨"January 2024", 1, 2024, (2024, 1), [[Cell.str "15/01/2024"]]⟩], 2, 2, 0⟩
      0
      ⟨"January 2023", 1, 2023, (2023, 1), [[Cell.str "15/01/2023"]]⟩
      ⟨"January 2024", 1, 2024, (2024, 1), [[Cell.str "15/01/2024"]]⟩
      [Cell.str "15/01/2023"] [Cell.str "15/01/2024"] 1 2023 2024
      (by decide) (by decide) (by decide) (by decide) (by decide) (by decide)
      (by decide) (by decide) (by decide)
